import Mathlib

/-!
# RawExaminerController

A shallow embedding of `src/RawExaminerController.hpp`, the pointer-driven
examiner (arcball) camera controller, and theorems about it.

Modelling conventions

* `float` is read as exact arithmetic: every definition is written over an
  arbitrary linearly ordered field `F`, so it can be evaluated over `ℚ` and
  reasoned about over `ℝ`.
* `std::sqrt` is the one primitive that is not a field operation; the
  functions that call it take it as their first argument `sqrt`.  Theorems
  that depend on what a square root is instantiate it with `Real.sqrt`.
* `std::array<float, N>` is `Fin N → F`; `a[i]` is `a i`.
* `int button` is `Int`; the code only compares it with `1` and `2`.
* A member function that mutates `*this` is a function from the old object to
  the new one.
-/

/-- The data members of `class RawExaminerController`, in declaration order. -/
structure RawExaminerController (F : Type) where
  m_radius : F
  m_lastX : F
  m_lastY : F
  m_hemisphere : F
  m_rotation : Fin 4 → F
  m_bRotate : Bool
  m_bShift : Bool
  m_bPitch : Bool
  m_pitchX : F
  m_pitchY : F
  m_shiftX : F
  m_shiftY : F
  m_translationX : F
  m_translationY : F
  m_translationZ : F
  m_defaultTranslationX : F
  m_defaultTranslationY : F
  m_defaultTranslationZ : F

namespace RawExaminerController

variable {F : Type} [LinearOrderedField F]

/-- The member function `reset()`. -/
def reset (c : RawExaminerController F) : RawExaminerController F :=
  { c with
    m_bRotate := false
    m_bShift := false
    m_bPitch := false
    m_rotation := ![1, 0, 0, 0]
    m_translationX := c.m_defaultTranslationX
    m_translationY := c.m_defaultTranslationY
    m_translationZ := c.m_defaultTranslationZ
    m_pitchX := 0
    m_pitchY := 0
    m_shiftX := 0
    m_shiftY := 0 }

/-- The constructor: the member initialisers (the explicit ones of the
initialiser list and the default ones of the declarations; `m_rotation` has
none and is written by `reset` before it is read), followed by the body
`reset()`. -/
def construct (gazeIntoPositiveZDirection : Bool) (defaultTx defaultTy defaultTz : F) :
    RawExaminerController F :=
  reset
    { m_radius := 0.8
      m_lastX := 0
      m_lastY := 0
      m_hemisphere := if gazeIntoPositiveZDirection then -1 else 1
      m_rotation := ![0, 0, 0, 0]
      m_bRotate := false
      m_bShift := false
      m_bPitch := false
      m_pitchX := 0
      m_pitchY := 0
      m_shiftX := 0
      m_shiftY := 0
      m_translationX := defaultTx
      m_translationY := defaultTy
      m_translationZ := defaultTz
      m_defaultTranslationX := defaultTx
      m_defaultTranslationY := defaultTy
      m_defaultTranslationZ := defaultTz }

/-- The first block of `click`: `if (button == 1) { ... }`. -/
def clickButton1 (c : RawExaminerController F) (pressed : Bool) (button : Int)
    (keyboardModifier : Bool) (mx my : F) : RawExaminerController F :=
  if button = 1 then
    if pressed then
      if keyboardModifier then
        { c with m_bShift := true, m_bRotate := false, m_shiftX := mx, m_shiftY := my }
      else
        { c with m_bRotate := true, m_bShift := false, m_lastX := mx, m_lastY := my }
    else
      { c with m_bRotate := false, m_bShift := false }
  else c

/-- The second block of `click`: `if (button == 2) { ... }`. -/
def clickButton2 (c : RawExaminerController F) (pressed : Bool) (button : Int)
    (mx my : F) : RawExaminerController F :=
  if button = 2 then
    if pressed then
      { c with m_bPitch := true, m_pitchX := mx, m_pitchY := my }
    else
      { c with m_bPitch := false }
  else c

/-- The member function `click(pressed, button, keyboardModifier, mx, my)`:
its two blocks in sequence. -/
def click (c : RawExaminerController F) (pressed : Bool) (button : Int)
    (keyboardModifier : Bool) (mx my : F) : RawExaminerController F :=
  clickButton2 (clickButton1 c pressed button keyboardModifier mx my) pressed button mx my

/-- The lambda `project` of `move`; it captures `m_radius` and `m_hemisphere`. -/
def project (sqrt : F → F) (c : RawExaminerController F) (x y : F) : Fin 3 → F :=
  let d := x * x + y * y
  if d ≤ c.m_radius * c.m_radius then
    ![x, y, c.m_hemisphere * sqrt (c.m_radius * c.m_radius - d)]
  else
    ![x, y, 0]

/-- The lambda `arcQuat` of `move`. -/
def arcQuat (a b : Fin 3 → F) : Fin 4 → F :=
  let cx := a 1 * b 2 - a 2 * b 1
  let cy := a 2 * b 0 - a 0 * b 2
  let cz := a 0 * b 1 - a 1 * b 0
  let d := a 0 * b 0 + a 1 * b 1 + a 2 * b 2
  ![d, cx, cy, cz]

/-- The lambda `mul` of `move`. -/
def mul (A B : Fin 4 → F) : Fin 4 → F :=
  let w1 := A 0
  let x1 := A 1
  let y1 := A 2
  let z1 := A 3
  let w2 := B 0
  let x2 := B 1
  let y2 := B 2
  let z2 := B 3
  ![w1 * w2 - x1 * x2 - y1 * y2 - z1 * z2, w1 * x2 + x1 * w2 + y1 * z2 - z1 * y2,
    w1 * y2 - x1 * z2 + y1 * w2 + z1 * x2, w1 * z2 + x1 * y2 - y1 * x2 + z1 * w2]

/-- The lambda `norm` of `move`; the in-place update of `q` is the returned array. -/
def norm (sqrt : F → F) (q : Fin 4 → F) : Fin 4 → F :=
  let L := sqrt (q 0 * q 0 + q 1 * q 1 + q 2 * q 2 + q 3 * q 3)
  if L = 0 then
    ![1, 0, 0, 0]
  else
    let inv := 1 / L
    ![q 0 * inv, q 1 * inv, q 2 * inv, q 3 * inv]

/-- The first block of `move`: `if (m_bRotate) { ... }`. -/
def moveRotate (sqrt : F → F) (c : RawExaminerController F) (mx my : F) :
    RawExaminerController F :=
  if c.m_bRotate then
    let x0 := c.m_lastX
    let y0 := c.m_lastY
    let x1 := mx
    let y1 := my
    let p0 := project sqrt c x0 y0
    let p1 := project sqrt c x1 y1
    let q := arcQuat p0 p1
    { c with m_rotation := norm sqrt (mul q c.m_rotation), m_lastX := mx, m_lastY := my }
  else c

/-- The second block of `move`: `if (m_bPitch) { ... }`. -/
def movePitch (c : RawExaminerController F) (mx my : F) : RawExaminerController F :=
  if c.m_bPitch then
    let dx := mx - c.m_pitchX
    let dy := my - c.m_pitchY
    { c with
      m_translationX := c.m_translationX + dx
      m_translationY := c.m_translationY + dy
      m_pitchX := mx
      m_pitchY := my }
  else c

/-- The third block of `move`: `if (m_bShift) { ... }`. -/
def moveShift (c : RawExaminerController F) (mx my : F) : RawExaminerController F :=
  if c.m_bShift then
    let dy := my - c.m_shiftY
    { c with m_translationZ := c.m_translationZ - dy, m_shiftX := mx, m_shiftY := my }
  else c

/-- The member function `move(mx, my)`: its three blocks in sequence. -/
def move (sqrt : F → F) (c : RawExaminerController F) (mx my : F) : RawExaminerController F :=
  moveShift (movePitch (moveRotate sqrt c mx my) mx my) mx my

/-- The member function `abort()`. -/
def abort (c : RawExaminerController F) : RawExaminerController F :=
  { c with m_bRotate := false, m_bShift := false, m_bPitch := false }

/-- The member function `active()`. -/
def active (c : RawExaminerController F) : Bool :=
  c.m_bRotate || c.m_bShift || c.m_bPitch

/-- The member function `getRotationMatrix()`. -/
def getRotationMatrix (c : RawExaminerController F) : Fin 16 → F :=
  let w := c.m_rotation 0
  let x := c.m_rotation 1
  let y := c.m_rotation 2
  let z := c.m_rotation 3
  ![1 - 2 * (y * y + z * z),
    2 * (x * y + z * w),
    2 * (x * z - y * w),
    0,
    2 * (x * y - z * w),
    1 - 2 * (x * x + z * z),
    2 * (y * z + x * w),
    0,
    2 * (x * z + y * w),
    2 * (y * z - x * w),
    1 - 2 * (x * x + y * y),
    0,
    0,
    0,
    0,
    1]

/-- The member function `getTranslationMatrix()`. -/
def getTranslationMatrix (c : RawExaminerController F) : Fin 16 → F :=
  ![1, 0, 0, 0, 0, 1, 0, 0, 0, 0, 1, 0, c.m_translationX, c.m_translationY, c.m_translationZ, 1]

/-- The member function `getTransformationMatrix()`: the rotation matrix with
the entries 12, 13 and 14 overwritten. -/
def getTransformationMatrix (c : RawExaminerController F) : Fin 16 → F :=
  let r := getRotationMatrix c
  let r := Function.update r 12 c.m_translationX
  let r := Function.update r 13 c.m_translationY
  let r := Function.update r 14 c.m_translationZ
  r

/-- The member function `getRotationQuaternion()`. -/
def getRotationQuaternion (c : RawExaminerController F) : Fin 4 → F :=
  c.m_rotation

/-- The member function `setRotationQuaternion(q)`. -/
def setRotationQuaternion (c : RawExaminerController F) (q : Fin 4 → F) :
    RawExaminerController F :=
  { c with m_rotation := q }

/-- The member function `getTranslationVector()`. -/
def getTranslationVector (c : RawExaminerController F) : Fin 3 → F :=
  ![c.m_translationX, c.m_translationY, c.m_translationZ]

/-- The member function `setTranslationVector(t)`. -/
def setTranslationVector (c : RawExaminerController F) (t : Fin 3 → F) :
    RawExaminerController F :=
  { c with m_translationX := t 0, m_translationY := t 1, m_translationZ := t 2 }

end RawExaminerController

/-- A call of one of the public mutating member functions, with its arguments. -/
inductive Call (F : Type) where
  | reset : Call F
  | click (pressed : Bool) (button : Int) (keyboardModifier : Bool) (mx my : F) : Call F
  | move (mx my : F) : Call F
  | abort : Call F
  | setRotationQuaternion (q : Fin 4 → F) : Call F
  | setTranslationVector (t : Fin 3 → F) : Call F

namespace RawExaminerController

variable {F : Type} [LinearOrderedField F]

/-- The effect of one call on the object. -/
def call (sqrt : F → F) (c : RawExaminerController F) : Call F → RawExaminerController F
  | .reset => c.reset
  | .click pressed button keyboardModifier mx my => c.click pressed button keyboardModifier mx my
  | .move mx my => c.move sqrt mx my
  | .abort => c.abort
  | .setRotationQuaternion q => c.setRotationQuaternion q
  | .setTranslationVector t => c.setTranslationVector t

/-- The effect of a sequence of calls, the first of the list first. -/
def run (sqrt : F → F) (c : RawExaminerController F) (calls : List (Call F)) :
    RawExaminerController F :=
  calls.foldl (call sqrt) c

end RawExaminerController

/-! ## Auxiliary notions used in the statements -/

section notions

variable {F : Type} [LinearOrderedField F]

/-- The sum of the squares of the four entries of an array. -/
def sumSq (q : Fin 4 → F) : F :=
  q 0 * q 0 + q 1 * q 1 + q 2 * q 2 + q 3 * q 3

/-- The sum of the squares of the three entries of an array. -/
def sumSq3 (p : Fin 3 → F) : F :=
  p 0 * p 0 + p 1 * p 1 + p 2 * p 2

/-- The array `q` is a unit quaternion: `w² + x² + y² + z² = 1`. -/
def UnitQuaternion (q : Fin 4 → F) : Prop :=
  q 0 ^ 2 + q 1 ^ 2 + q 2 ^ 2 + q 3 ^ 2 = 1

/-- Every call but a `setRotationQuaternion` whose argument is not a unit
quaternion. -/
def Call.UnitArgument : Call F → Prop
  | .setRotationQuaternion q => UnitQuaternion q
  | _ => True

/-- The object is in a state that the program can be in: it results from the
constructor followed by public mutating calls, whatever their arguments. -/
def Reachable (sqrt : F → F) (c : RawExaminerController F) : Prop :=
  ∃ (gaze : Bool) (tx ty tz : F) (calls : List (Call F)),
    c = (RawExaminerController.construct gaze tx ty tz).run sqrt calls

/-- The radius is not zero and the hemisphere sign squares to one: what the
constructor establishes (`0.8`, and `-1` or `1`) and no member function
changes. -/
def Constructed (c : RawExaminerController F) : Prop :=
  c.m_radius ≠ 0 ∧ c.m_hemisphere * c.m_hemisphere = 1

end notions

/-- The array `r` with every entry divided by the Euclidean length of `r`. -/
noncomputable def unitOf (r : Fin 4 → ℝ) : Fin 4 → ℝ :=
  fun i => r i / Real.sqrt (r 0 ^ 2 + r 1 ^ 2 + r 2 ^ 2 + r 3 ^ 2)

/-! ## The arcball step as the specification words it -/

namespace ArcballSpec

/-- The quaternion `w + x i + y j + z k` of the array `(w, x, y, z)`. -/
def toQuaternion (q : Fin 4 → ℝ) : Quaternion ℝ :=
  ⟨q 0, q 1, q 2, q 3⟩

/-- The array `(w, x, y, z)` of a quaternion. -/
def ofQuaternion (q : Quaternion ℝ) : Fin 4 → ℝ :=
  ![q.re, q.imI, q.imJ, q.imK]

/-- Step 1 of the arcball algorithm in the specification's words: with
`d = x² + y²`, the point `(x, y, hemisphereSign * sqrt(radius² - d))` if
`d ≤ radius²`, and `(x, y, 0)` otherwise. -/
noncomputable def hemispherePoint (radius hemisphereSign x y : ℝ) : Fin 3 → ℝ :=
  if x ^ 2 + y ^ 2 ≤ radius ^ 2 then
    ![x, y, hemisphereSign * Real.sqrt (radius ^ 2 - (x ^ 2 + y ^ 2))]
  else
    ![x, y, 0]

/-- Step 2 in the specification's words: real part the dot product of the two
points, imaginary part their cross product, point0 × point1. -/
def arc (P0 P1 : Fin 3 → ℝ) : Quaternion ℝ :=
  ⟨Matrix.dotProduct P0 P1, crossProduct P0 P1 0, crossProduct P0 P1 1, crossProduct P0 P1 2⟩

/-- Step 4 in the specification's words: division by the Euclidean norm, and
the identity quaternion when the norm is zero. -/
noncomputable def normalize (q : Quaternion ℝ) : Quaternion ℝ :=
  if ‖q‖ = 0 then 1 else ‖q‖⁻¹ • q

end ArcballSpec

/-! ## Matrices and move sequences used in the statements -/

section more_notions

variable {F : Type}

/-- The 4x4 matrix that an array of 16 values is when read column-major:
the entry of row `i` and column `j` is the value at index `4 * j + i`. -/
def columnMajor (m : Fin 16 → F) : Matrix (Fin 4) (Fin 4) F :=
  Matrix.of fun i j => m ⟨4 * j.val + i.val, by omega⟩

/-- The upper-left 3x3 block of the column-major reading. -/
def rotationBlock (m : Fin 16 → F) : Matrix (Fin 3) (Fin 3) F :=
  Matrix.of fun i j => m ⟨4 * j.val + i.val, by omega⟩

/-- The calls `move(x, y)` for the points of a list, in order. -/
def moveCalls (points : List (F × F)) : List (Call F) :=
  points.map fun p => Call.move p.1 p.2

end more_notions

/-- The quaternion `(0, v)` of a 3-vector `v`. -/
def ArcballSpec.pureQuaternion (v : Fin 3 → ℝ) : Quaternion ℝ :=
  ⟨0, v 0, v 1, v 2⟩

/-- The vector part of a quaternion. -/
def ArcballSpec.vectorPart (q : Quaternion ℝ) : Fin 3 → ℝ :=
  ![q.imI, q.imJ, q.imK]

/-- The calls of the specification's rotation scenario after construction:
`reset()`, press of button 1 without modifier at `(0.1, 0.1)`, `move(0.2, 0.1)`,
release of button 1. -/
def scenarioCalls {F : Type} [LinearOrderedField F] (keyboardModifier : Bool) (rx ry : F) :
    List (Call F) :=
  [.reset, .click true 1 false 0.1 0.1, .move 0.2 0.1, .click false 1 keyboardModifier rx ry]

/-! ## What `click` leaves alone -/

section click_frame

variable {F : Type} (c : RawExaminerController F) (pressed : Bool) (button : Int)
  (keyboardModifier : Bool) (mx my : F)

theorem click_m_rotation :
    (c.click pressed button keyboardModifier mx my).m_rotation = c.m_rotation := by
  unfold RawExaminerController.click RawExaminerController.clickButton1
    RawExaminerController.clickButton2
  split_ifs <;> rfl

theorem click_m_radius :
    (c.click pressed button keyboardModifier mx my).m_radius = c.m_radius := by
  unfold RawExaminerController.click RawExaminerController.clickButton1
    RawExaminerController.clickButton2
  split_ifs <;> rfl

theorem click_m_hemisphere :
    (c.click pressed button keyboardModifier mx my).m_hemisphere = c.m_hemisphere := by
  unfold RawExaminerController.click RawExaminerController.clickButton1
    RawExaminerController.clickButton2
  split_ifs <;> rfl

theorem click_translation :
    (c.click pressed button keyboardModifier mx my).m_translationX = c.m_translationX ∧
      (c.click pressed button keyboardModifier mx my).m_translationY = c.m_translationY ∧
      (c.click pressed button keyboardModifier mx my).m_translationZ = c.m_translationZ := by
  unfold RawExaminerController.click RawExaminerController.clickButton1
    RawExaminerController.clickButton2
  split_ifs <;> exact ⟨rfl, rfl, rfl⟩

theorem click_defaultTranslation :
    (c.click pressed button keyboardModifier mx my).m_defaultTranslationX =
        c.m_defaultTranslationX ∧
      (c.click pressed button keyboardModifier mx my).m_defaultTranslationY =
        c.m_defaultTranslationY ∧
      (c.click pressed button keyboardModifier mx my).m_defaultTranslationZ =
        c.m_defaultTranslationZ := by
  unfold RawExaminerController.click RawExaminerController.clickButton1
    RawExaminerController.clickButton2
  split_ifs <;> exact ⟨rfl, rfl, rfl⟩

end click_frame

/-! ## What each block of `move` does to each member -/

section move_members

variable {F : Type} [LinearOrderedField F] (sqrt : F → F) (c : RawExaminerController F)
  (mx my : F)

open RawExaminerController

theorem move_m_rotation :
    (c.move sqrt mx my).m_rotation =
      if c.m_bRotate then
        norm sqrt (mul (arcQuat (project sqrt c c.m_lastX c.m_lastY) (project sqrt c mx my))
          c.m_rotation)
      else c.m_rotation := by
  unfold move moveShift movePitch moveRotate
  split_ifs <;> rfl

theorem move_m_lastX : (c.move sqrt mx my).m_lastX = if c.m_bRotate then mx else c.m_lastX := by
  unfold move moveShift movePitch moveRotate
  split_ifs <;> rfl

theorem move_m_lastY : (c.move sqrt mx my).m_lastY = if c.m_bRotate then my else c.m_lastY := by
  unfold move moveShift movePitch moveRotate
  split_ifs <;> rfl

theorem move_m_translationX :
    (c.move sqrt mx my).m_translationX =
      if c.m_bPitch then c.m_translationX + (mx - c.m_pitchX) else c.m_translationX := by
  unfold move moveShift movePitch moveRotate
  split_ifs <;> rfl

theorem move_m_translationY :
    (c.move sqrt mx my).m_translationY =
      if c.m_bPitch then c.m_translationY + (my - c.m_pitchY) else c.m_translationY := by
  unfold move moveShift movePitch moveRotate
  split_ifs <;> rfl

theorem move_m_translationZ :
    (c.move sqrt mx my).m_translationZ =
      if c.m_bShift then c.m_translationZ - (my - c.m_shiftY) else c.m_translationZ := by
  unfold move moveShift movePitch moveRotate
  split_ifs <;> rfl

theorem move_m_pitchX : (c.move sqrt mx my).m_pitchX = if c.m_bPitch then mx else c.m_pitchX := by
  unfold move moveShift movePitch moveRotate
  split_ifs <;> rfl

theorem move_m_pitchY : (c.move sqrt mx my).m_pitchY = if c.m_bPitch then my else c.m_pitchY := by
  unfold move moveShift movePitch moveRotate
  split_ifs <;> rfl

theorem move_m_radius : (c.move sqrt mx my).m_radius = c.m_radius := by
  unfold move moveShift movePitch moveRotate
  split_ifs <;> rfl

theorem move_m_hemisphere : (c.move sqrt mx my).m_hemisphere = c.m_hemisphere := by
  unfold move moveShift movePitch moveRotate
  split_ifs <;> rfl

theorem move_flags :
    (c.move sqrt mx my).m_bRotate = c.m_bRotate ∧ (c.move sqrt mx my).m_bShift = c.m_bShift ∧
      (c.move sqrt mx my).m_bPitch = c.m_bPitch := by
  unfold move moveShift movePitch moveRotate
  split_ifs <;> exact ⟨rfl, rfl, rfl⟩

theorem move_defaultTranslation :
    (c.move sqrt mx my).m_defaultTranslationX = c.m_defaultTranslationX ∧
      (c.move sqrt mx my).m_defaultTranslationY = c.m_defaultTranslationY ∧
      (c.move sqrt mx my).m_defaultTranslationZ = c.m_defaultTranslationZ := by
  unfold move moveShift movePitch moveRotate
  split_ifs <;> exact ⟨rfl, rfl, rfl⟩

theorem project_congr (d : RawExaminerController F) (hR : d.m_radius = c.m_radius)
    (hH : d.m_hemisphere = c.m_hemisphere) (x y : F) :
    project sqrt d x y = project sqrt c x y := by
  simp only [project, hR, hH]

end move_members

/-! ## What no call changes -/

section call_frame

variable {F : Type} [LinearOrderedField F] (sqrt : F → F)

open RawExaminerController

theorem call_m_radius (c : RawExaminerController F) (k : Call F) :
    (c.call sqrt k).m_radius = c.m_radius := by
  cases k with
  | reset => rfl
  | click pressed button keyboardModifier mx my => exact click_m_radius c _ _ _ _ _
  | move mx my => exact move_m_radius sqrt c _ _
  | abort => rfl
  | setRotationQuaternion q => rfl
  | setTranslationVector t => rfl

theorem call_m_hemisphere (c : RawExaminerController F) (k : Call F) :
    (c.call sqrt k).m_hemisphere = c.m_hemisphere := by
  cases k with
  | reset => rfl
  | click pressed button keyboardModifier mx my => exact click_m_hemisphere c _ _ _ _ _
  | move mx my => exact move_m_hemisphere sqrt c _ _
  | abort => rfl
  | setRotationQuaternion q => rfl
  | setTranslationVector t => rfl

theorem call_defaultTranslation (c : RawExaminerController F) (k : Call F) :
    (c.call sqrt k).m_defaultTranslationX = c.m_defaultTranslationX ∧
      (c.call sqrt k).m_defaultTranslationY = c.m_defaultTranslationY ∧
      (c.call sqrt k).m_defaultTranslationZ = c.m_defaultTranslationZ := by
  cases k with
  | reset => exact ⟨rfl, rfl, rfl⟩
  | click pressed button keyboardModifier mx my => exact click_defaultTranslation c _ _ _ _ _
  | move mx my => exact move_defaultTranslation sqrt c _ _
  | abort => exact ⟨rfl, rfl, rfl⟩
  | setRotationQuaternion q => exact ⟨rfl, rfl, rfl⟩
  | setTranslationVector t => exact ⟨rfl, rfl, rfl⟩

theorem run_m_radius (calls : List (Call F)) (c : RawExaminerController F) :
    (c.run sqrt calls).m_radius = c.m_radius := by
  induction calls generalizing c with
  | nil => rfl
  | cons k ks ih =>
    simp only [run, List.foldl_cons]
    exact (ih _).trans (call_m_radius sqrt c k)

theorem run_m_hemisphere (calls : List (Call F)) (c : RawExaminerController F) :
    (c.run sqrt calls).m_hemisphere = c.m_hemisphere := by
  induction calls generalizing c with
  | nil => rfl
  | cons k ks ih =>
    simp only [run, List.foldl_cons]
    exact (ih _).trans (call_m_hemisphere sqrt c k)

theorem run_defaultTranslation (calls : List (Call F)) (c : RawExaminerController F) :
    (c.run sqrt calls).m_defaultTranslationX = c.m_defaultTranslationX ∧
      (c.run sqrt calls).m_defaultTranslationY = c.m_defaultTranslationY ∧
      (c.run sqrt calls).m_defaultTranslationZ = c.m_defaultTranslationZ := by
  induction calls generalizing c with
  | nil => exact ⟨rfl, rfl, rfl⟩
  | cons k ks ih =>
    simp only [run, List.foldl_cons]
    obtain ⟨h1, h2, h3⟩ := ih (c.call sqrt k)
    obtain ⟨g1, g2, g3⟩ := call_defaultTranslation sqrt c k
    exact ⟨h1.trans g1, h2.trans g2, h3.trans g3⟩

theorem constructed_of_reachable (c : RawExaminerController F) (hc : Reachable sqrt c) :
    Constructed c := by
  obtain ⟨gaze, tx, ty, tz, calls, rfl⟩ := hc
  unfold Constructed
  rw [run_m_radius, run_m_hemisphere]
  constructor
  · norm_num [construct, reset]
  · cases gaze <;> simp [construct, reset]

end call_frame

/-! ## Algebra of the lambdas of `move` -/

section algebra

variable {F : Type} [LinearOrderedField F]

open RawExaminerController

theorem unitQuaternion_iff (q : Fin 4 → F) : UnitQuaternion q ↔ sumSq q = 1 := by
  simp only [UnitQuaternion, sumSq, pow_two]

theorem norm_def (sqrt : F → F) (q : Fin 4 → F) :
    RawExaminerController.norm sqrt q =
      if sqrt (sumSq q) = 0 then ![1, 0, 0, 0] else (1 / sqrt (sumSq q)) • q := by
  by_cases h : sqrt (q 0 * q 0 + q 1 * q 1 + q 2 * q 2 + q 3 * q 3) = 0
  · simp [RawExaminerController.norm, sumSq, h]
  · funext i
    fin_cases i <;> simp [RawExaminerController.norm, sumSq, h, mul_comm]

theorem sumSq_nonneg (q : Fin 4 → F) : 0 ≤ sumSq q := by
  unfold sumSq
  nlinarith [mul_self_nonneg (q 0), mul_self_nonneg (q 1), mul_self_nonneg (q 2),
    mul_self_nonneg (q 3)]

theorem sumSq_pos_of_ne_zero (q : Fin 4 → F) (hq : q ≠ 0) : 0 < sumSq q := by
  rcases (sumSq_nonneg q).lt_or_eq with h | h
  · exact h
  · exfalso
    apply hq
    have h0 := mul_self_nonneg (q 0)
    have h1 := mul_self_nonneg (q 1)
    have h2 := mul_self_nonneg (q 2)
    have h3 := mul_self_nonneg (q 3)
    unfold sumSq at h
    have e0 : q 0 = 0 := mul_self_eq_zero.1 (le_antisymm (by linarith) h0)
    have e1 : q 1 = 0 := mul_self_eq_zero.1 (le_antisymm (by linarith) h1)
    have e2 : q 2 = 0 := mul_self_eq_zero.1 (le_antisymm (by linarith) h2)
    have e3 : q 3 = 0 := mul_self_eq_zero.1 (le_antisymm (by linarith) h3)
    funext i
    fin_cases i
    exacts [e0, e1, e2, e3]

theorem sumSq_smul (k : F) (q : Fin 4 → F) : sumSq (k • q) = k * k * sumSq q := by
  simp only [sumSq, Pi.smul_apply, smul_eq_mul]
  ring

/-- Euler's four-square identity for the code's product. -/
theorem sumSq_mul (A B : Fin 4 → F) : sumSq (mul A B) = sumSq A * sumSq B := by
  simp [sumSq, mul]
  ring

/-- Lagrange's identity for the code's arc quaternion. -/
theorem sumSq_arcQuat (a b : Fin 3 → F) : sumSq (arcQuat a b) = sumSq3 a * sumSq3 b := by
  simp [sumSq, sumSq3, arcQuat]
  ring

theorem mul_smul_right (k : F) (A B : Fin 4 → F) : mul A (k • B) = k • mul A B := by
  funext i
  fin_cases i <;> simp [mul] <;> ring

/-- The arc from `b` back to `a` undoes the arc from `a` to `b` up to the
positive factor `|arc|²`. -/
theorem mul_arcQuat_swap (a b : Fin 3 → F) (r : Fin 4 → F) :
    mul (arcQuat b a) (mul (arcQuat a b) r) = sumSq (arcQuat a b) • r := by
  funext i
  fin_cases i <;> simp [mul, arcQuat, sumSq] <;> ring

/-- The arc from a point to itself is a real multiple of the identity. -/
theorem mul_arcQuat_self (a : Fin 3 → F) (r : Fin 4 → F) :
    mul (arcQuat a a) r = sumSq3 a • r := by
  funext i
  fin_cases i <;> simp [mul, arcQuat, sumSq3] <;> ring

end algebra

section real_algebra

open RawExaminerController

theorem norm_smul_of_pos {k : ℝ} (hk : 0 < k) (q : Fin 4 → ℝ) :
    RawExaminerController.norm Real.sqrt (k • q) = RawExaminerController.norm Real.sqrt q := by
  have hs : Real.sqrt (sumSq (k • q)) = k * Real.sqrt (sumSq q) := by
    rw [sumSq_smul, Real.sqrt_mul (mul_self_nonneg k), Real.sqrt_mul_self hk.le]
  rw [norm_def, norm_def, hs]
  by_cases h : Real.sqrt (sumSq q) = 0
  · simp [h]
  · rw [if_neg h, if_neg (mul_ne_zero hk.ne' h), smul_smul]
    congr 1
    field_simp

theorem sumSq_norm (q : Fin 4 → ℝ) : sumSq (RawExaminerController.norm Real.sqrt q) = 1 := by
  rw [norm_def]
  split_ifs with h
  · simp [sumSq]
  · rw [sumSq_smul]
    have h2 : Real.sqrt (sumSq q) * Real.sqrt (sumSq q) = sumSq q :=
      Real.mul_self_sqrt (sumSq_nonneg q)
    field_simp
    nlinarith [h2]

theorem norm_of_ne_zero (r : Fin 4 → ℝ) (hr : r ≠ 0) :
    RawExaminerController.norm Real.sqrt r = unitOf r := by
  have hpos := Real.sqrt_pos.2 (sumSq_pos_of_ne_zero r hr)
  rw [norm_def, if_neg hpos.ne']
  funext i
  simp only [unitOf, Pi.smul_apply, smul_eq_mul, one_div, sumSq, pow_two]
  rw [div_eq_inv_mul]

theorem unitOf_of_unit (r : Fin 4 → ℝ) (hr : UnitQuaternion r) : unitOf r = r := by
  funext i
  unfold UnitQuaternion at hr
  simp [unitOf, hr]

theorem norm_there_and_back (a b : Fin 3 → ℝ) (r : Fin 4 → ℝ) (ha : 0 < sumSq3 a)
    (hb : 0 < sumSq3 b) (hr : r ≠ 0) :
    RawExaminerController.norm Real.sqrt
        (mul (arcQuat b a) (RawExaminerController.norm Real.sqrt (mul (arcQuat a b) r))) =
      RawExaminerController.norm Real.sqrt r := by
  have hS : 0 < sumSq (arcQuat a b) := by
    rw [sumSq_arcQuat]
    exact mul_pos ha hb
  have hq : 0 < sumSq (mul (arcQuat a b) r) := by
    rw [sumSq_mul]
    exact mul_pos hS (sumSq_pos_of_ne_zero r hr)
  have hL := Real.sqrt_pos.2 hq
  rw [norm_def Real.sqrt (mul (arcQuat a b) r), if_neg hL.ne', mul_smul_right, mul_arcQuat_swap,
    smul_smul]
  exact norm_smul_of_pos (mul_pos (one_div_pos.2 hL) hS) r

theorem norm_stay (a : Fin 3 → ℝ) (r : Fin 4 → ℝ) (ha : 0 < sumSq3 a) :
    RawExaminerController.norm Real.sqrt (mul (arcQuat a a) r) =
      RawExaminerController.norm Real.sqrt r := by
  rw [mul_arcQuat_self]
  exact norm_smul_of_pos ha r

/-- A projected point is never the origin: it has squared length `radius²`
inside the disc and more than `radius²` outside. -/
theorem sumSq3_project_pos (c : RawExaminerController ℝ) (hc : Constructed c) (x y : ℝ) :
    0 < sumSq3 (project Real.sqrt c x y) := by
  obtain ⟨hR, hH⟩ := hc
  have hRR : 0 < c.m_radius * c.m_radius := mul_self_pos.2 hR
  by_cases hd : x * x + y * y ≤ c.m_radius * c.m_radius
  · have hs := Real.mul_self_sqrt (sub_nonneg.2 hd)
    have : sumSq3 (project Real.sqrt c x y) = c.m_radius * c.m_radius := by
      simp only [project, sumSq3, if_pos hd]
      simp
      linear_combination
        (c.m_radius * c.m_radius - (x * x + y * y)) * hH + c.m_hemisphere * c.m_hemisphere * hs
    rw [this]
    exact hRR
  · have : sumSq3 (project Real.sqrt c x y) = x * x + y * y := by
      simp only [project, sumSq3, if_neg hd]
      simp
    rw [this]
    exact lt_trans hRR (not_le.1 hd)

theorem call_unitQuaternion (c : RawExaminerController ℝ) (k : Call ℝ)
    (hc : UnitQuaternion c.m_rotation) (hk : k.UnitArgument) :
    UnitQuaternion (c.call Real.sqrt k).m_rotation := by
  cases k with
  | reset => simp [call, reset, UnitQuaternion]
  | click pressed button keyboardModifier mx my =>
    simpa only [call, click_m_rotation] using hc
  | move mx my =>
    simp only [call, move_m_rotation]
    split_ifs
    · exact (unitQuaternion_iff _).2 (sumSq_norm _)
    · exact hc
  | abort => exact hc
  | setRotationQuaternion q => exact hk
  | setTranslationVector t => exact hc

theorem run_unitQuaternion (calls : List (Call ℝ)) (c : RawExaminerController ℝ)
    (hc : UnitQuaternion c.m_rotation) (h : ∀ k ∈ calls, k.UnitArgument) :
    UnitQuaternion (c.run Real.sqrt calls).m_rotation := by
  induction calls generalizing c with
  | nil => exact hc
  | cons k ks ih =>
    simp only [run, List.foldl_cons]
    exact ih _ (call_unitQuaternion c k hc (h k (List.mem_cons_self k ks)))
      (fun j hj => h j (List.mem_cons_of_mem k hj))

end real_algebra

/-! ## The code's lambdas against the specification's words -/

namespace ArcballSpec

open RawExaminerController

theorem toQuaternion_mul (A B : Fin 4 → ℝ) :
    toQuaternion (mul A B) = toQuaternion A * toQuaternion B := by
  ext <;> simp [toQuaternion, mul]

theorem toQuaternion_arcQuat (a b : Fin 3 → ℝ) : toQuaternion (arcQuat a b) = arc a b := by
  ext <;> simp [toQuaternion, arcQuat, arc, crossProduct, Matrix.dotProduct, Fin.sum_univ_three]

theorem project_eq_hemispherePoint (c : RawExaminerController ℝ) (x y : ℝ) :
    project Real.sqrt c x y = hemispherePoint c.m_radius c.m_hemisphere x y := by
  simp only [project, hemispherePoint, pow_two]

theorem norm_toQuaternion (q : Fin 4 → ℝ) :
    ‖toQuaternion q‖ = Real.sqrt (q 0 * q 0 + q 1 * q 1 + q 2 * q 2 + q 3 * q 3) := by
  rw [← Real.sqrt_mul_self (norm_nonneg (toQuaternion q)), ← Quaternion.normSq_eq_norm_mul_self,
    Quaternion.normSq_def']
  simp [toQuaternion, pow_two]

theorem norm_eq_normalize (q : Fin 4 → ℝ) :
    RawExaminerController.norm Real.sqrt q = ofQuaternion (normalize (toQuaternion q)) := by
  unfold RawExaminerController.norm normalize
  simp only [norm_toQuaternion]
  split_ifs with h
  · funext i
    fin_cases i <;> simp [ofQuaternion]
  · funext i
    fin_cases i <;> simp [ofQuaternion, toQuaternion, mul_comm]

end ArcballSpec

/-! ## A rotating drag that returns to its start -/

section there_and_back

open RawExaminerController

theorem press_rotate_members {F : Type} (c : RawExaminerController F) (x0 y0 : F) :
    (c.click true 1 false x0 y0).m_bRotate = true ∧ (c.click true 1 false x0 y0).m_lastX = x0 ∧
      (c.click true 1 false x0 y0).m_lastY = y0 := by
  simp [click, clickButton1, clickButton2]

/-- The rotation after a rotating press at `(x0, y0)` and one `move`. -/
theorem press_move_m_rotation {F : Type} [LinearOrderedField F] (sqrt : F → F)
    (c : RawExaminerController F) (x0 y0 x1 y1 : F) :
    ((c.click true 1 false x0 y0).move sqrt x1 y1).m_rotation =
      norm sqrt (mul (arcQuat (project sqrt c x0 y0) (project sqrt c x1 y1)) c.m_rotation) := by
  obtain ⟨hb, hx, hy⟩ := press_rotate_members c x0 y0
  rw [move_m_rotation, if_pos hb, hx, hy, click_m_rotation,
    project_congr sqrt c _ (click_m_radius c _ _ _ _ _) (click_m_hemisphere c _ _ _ _ _),
    project_congr sqrt c _ (click_m_radius c _ _ _ _ _) (click_m_hemisphere c _ _ _ _ _)]

/-- The rotation after a rotating press at `(x0, y0)` and two `move`s. -/
theorem press_move_move_m_rotation {F : Type} [LinearOrderedField F] (sqrt : F → F)
    (c : RawExaminerController F) (x0 y0 x1 y1 x2 y2 : F) :
    (((c.click true 1 false x0 y0).move sqrt x1 y1).move sqrt x2 y2).m_rotation =
      norm sqrt (mul (arcQuat (project sqrt c x1 y1) (project sqrt c x2 y2))
        (norm sqrt (mul (arcQuat (project sqrt c x0 y0) (project sqrt c x1 y1)) c.m_rotation))) := by
  obtain ⟨hb, -, -⟩ := press_rotate_members c x0 y0
  have hR : ((c.click true 1 false x0 y0).move sqrt x1 y1).m_radius = c.m_radius :=
    (move_m_radius sqrt _ _ _).trans (click_m_radius c _ _ _ _ _)
  have hH : ((c.click true 1 false x0 y0).move sqrt x1 y1).m_hemisphere = c.m_hemisphere :=
    (move_m_hemisphere sqrt _ _ _).trans (click_m_hemisphere c _ _ _ _ _)
  have hb2 : ((c.click true 1 false x0 y0).move sqrt x1 y1).m_bRotate = true :=
    (move_flags sqrt _ _ _).1.trans hb
  rw [move_m_rotation, if_pos hb2, move_m_lastX, move_m_lastY, if_pos hb, if_pos hb,
    press_move_m_rotation, project_congr sqrt c _ hR hH, project_congr sqrt c _ hR hH]

theorem rotation_there_and_back (c : RawExaminerController ℝ) (hc : Constructed c)
    (hr : c.m_rotation ≠ 0) (x0 y0 x1 y1 : ℝ) (keyboardModifier : Bool) (rx ry : ℝ) :
    (c.run Real.sqrt [.click true 1 false x0 y0, .move x1 y1, .move x0 y0,
      .click false 1 keyboardModifier rx ry]).m_rotation = unitOf c.m_rotation := by
  simp only [run, List.foldl_cons, List.foldl_nil, call]
  rw [click_m_rotation, press_move_move_m_rotation,
    norm_there_and_back _ _ _ (sumSq3_project_pos c hc x0 y0) (sumSq3_project_pos c hc x1 y1) hr,
    norm_of_ne_zero _ hr]

theorem rotation_stay (c : RawExaminerController ℝ) (hc : Constructed c)
    (hr : c.m_rotation ≠ 0) (x0 y0 : ℝ) (keyboardModifier : Bool) (rx ry : ℝ) :
    (c.run Real.sqrt [.click true 1 false x0 y0, .move x0 y0,
      .click false 1 keyboardModifier rx ry]).m_rotation = unitOf c.m_rotation := by
  simp only [run, List.foldl_cons, List.foldl_nil, call]
  rw [click_m_rotation, press_move_m_rotation, norm_stay _ _ (sumSq3_project_pos c hc x0 y0),
    norm_of_ne_zero _ hr]

theorem identity_ne_zero : (![1, 0, 0, 0] : Fin 4 → ℝ) ≠ 0 := by
  intro h
  have h0 := congrFun h 0
  simp at h0

end there_and_back

/-! ## The claims -/

/-- Claim C1. While rotating, `move(x, y)` sets the rotation to
`normalize(arc * rotation_old)`: `arc` has real part `P0 · P1` and imaginary
part `P0 × P1` for the hemisphere projections `P0` of the stored rotation
anchor and `P1` of `(x, y)`, the product is the Hamilton product of Mathlib's
quaternions with `arc` on the left, and `normalize` divides by the Euclidean
norm (identity when the norm is zero); afterwards the rotation anchor is
`(x, y)`.  Nothing is assumed about the panning and dollying flags. -/
theorem C1_move_rotating_arcball (c : RawExaminerController ℝ) (x y : ℝ)
    (hrot : c.m_bRotate = true) :
    (c.move Real.sqrt x y).m_rotation =
        ArcballSpec.ofQuaternion
          (ArcballSpec.normalize
            (ArcballSpec.arc
                (ArcballSpec.hemispherePoint c.m_radius c.m_hemisphere c.m_lastX c.m_lastY)
                (ArcballSpec.hemispherePoint c.m_radius c.m_hemisphere x y)
              * ArcballSpec.toQuaternion c.m_rotation)) ∧
      (c.move Real.sqrt x y).m_lastX = x ∧
      (c.move Real.sqrt x y).m_lastY = y := by
  refine ⟨?_, ?_, ?_⟩
  · rw [move_m_rotation, if_pos hrot, ArcballSpec.norm_eq_normalize,
      ArcballSpec.toQuaternion_mul, ArcballSpec.toQuaternion_arcQuat,
      ArcballSpec.project_eq_hemispherePoint, ArcballSpec.project_eq_hemispherePoint]
  · rw [move_m_lastX, if_pos hrot]
  · rw [move_m_lastY, if_pos hrot]

/-- Witness of C1: after a rotating press at `(0.1, 0.1)` on a fresh object the
rotating flag is set, and the move to `(0.2, 0.1)` leaves the anchor there. -/
theorem C1_move_rotating_arcball_witness :
    ((RawExaminerController.construct true (0 : ℝ) 0 (-2)).click true 1 false 0.1 0.1).m_bRotate
        = true ∧
      ((((RawExaminerController.construct true (0 : ℝ) 0 (-2)).click true 1 false 0.1 0.1).move
        Real.sqrt 0.2 0.1).m_lastX = 0.2 ∧
      (((RawExaminerController.construct true (0 : ℝ) 0 (-2)).click true 1 false 0.1 0.1).move
        Real.sqrt 0.2 0.1).m_lastY = 0.1) :=
  ⟨rfl, (C1_move_rotating_arcball _ 0.2 0.1 rfl).2⟩

/-- Counterexample to C2 as stated: `setRotationQuaternion` stores its argument
as it is, so after `setRotationQuaternion((2, 0, 0, 0))` on a fresh object the
stored rotation is `(2, 0, 0, 0)`, whose squares sum to 4. -/
theorem C2_setRotationQuaternion_not_unit :
    ((RawExaminerController.construct true (0 : ℝ) 0 0).run Real.sqrt
        [.setRotationQuaternion ![2, 0, 0, 0]]).m_rotation = ![2, 0, 0, 0] ∧
      ¬ UnitQuaternion
        ((RawExaminerController.construct true (0 : ℝ) 0 0).run Real.sqrt
          [.setRotationQuaternion ![2, 0, 0, 0]]).m_rotation := by
  constructor
  · rfl
  · norm_num [RawExaminerController.run, RawExaminerController.call,
      RawExaminerController.setRotationQuaternion, UnitQuaternion]

/-- Claim C2, amended. In every state reached from construction by a sequence
of `reset`, `click`, `move`, `abort`, `setTranslationVector` with arbitrary
arguments and `setRotationQuaternion` with unit quaternions, the stored
rotation satisfies `w² + x² + y² + z² = 1`. -/
theorem C2_rotation_unit_invariant (gaze : Bool) (tx ty tz : ℝ) (calls : List (Call ℝ))
    (h : ∀ k ∈ calls, k.UnitArgument) :
    UnitQuaternion ((RawExaminerController.construct gaze tx ty tz).run Real.sqrt calls).m_rotation :=
  run_unitQuaternion calls _
    (by simp [RawExaminerController.construct, RawExaminerController.reset, UnitQuaternion]) h

/-- Witness of C2 amended: a drag, a unit quaternion set from outside and a
further move. -/
theorem C2_rotation_unit_invariant_witness :
    UnitQuaternion
      ((RawExaminerController.construct true (0 : ℝ) 0 (-2)).run Real.sqrt
        [.click true 1 false 0.1 0.1, .move 0.2 0.1, .setRotationQuaternion ![0, 1, 0, 0],
          .move 0.3 0.1]).m_rotation :=
  C2_rotation_unit_invariant true 0 0 (-2) _ (by simp [Call.UnitArgument, UnitQuaternion])

/-- Claim C3. From every reachable state whose rotation `r` is not zero, and
for all points `A = (x0, y0)` and `B = (x1, y1)`, the calls press(button 1, no
modifier, A); move(B); move(A); release(button 1) leave the rotation equal to
`r / |r|`; so does the single move to the press position; `r / |r|` is `r`
when `r` is a unit quaternion; and started after `reset` the sequence ends
with exactly `(1, 0, 0, 0)`. -/
theorem C3_return_to_start (c : RawExaminerController ℝ) (x0 y0 x1 y1 : ℝ)
    (keyboardModifier : Bool) (rx ry : ℝ) (hc : Reachable Real.sqrt c) (hr : c.m_rotation ≠ 0) :
    (c.run Real.sqrt [.click true 1 false x0 y0, .move x1 y1, .move x0 y0,
        .click false 1 keyboardModifier rx ry]).m_rotation = unitOf c.m_rotation ∧
      (c.run Real.sqrt [.click true 1 false x0 y0, .move x0 y0,
        .click false 1 keyboardModifier rx ry]).m_rotation = unitOf c.m_rotation ∧
      (UnitQuaternion c.m_rotation → unitOf c.m_rotation = c.m_rotation) ∧
      (c.reset.run Real.sqrt [.click true 1 false x0 y0, .move x1 y1, .move x0 y0,
        .click false 1 keyboardModifier rx ry]).m_rotation = ![1, 0, 0, 0] := by
  have hC := constructed_of_reachable Real.sqrt c hc
  refine ⟨rotation_there_and_back c hC hr _ _ _ _ _ _ _, rotation_stay c hC hr _ _ _ _ _,
    unitOf_of_unit _, ?_⟩
  have hC2 : Constructed c.reset := hC
  rw [rotation_there_and_back c.reset hC2 identity_ne_zero]
  exact unitOf_of_unit _ (by simp [RawExaminerController.reset, UnitQuaternion])

/-- Witness of C3: the fresh object of the specification's scenario, dragged
from `(0.1, 0.1)` to `(0.2, 0.1)` and back. -/
theorem C3_return_to_start_witness :
    (RawExaminerController.construct true (0 : ℝ) 0 (-2)).m_rotation ≠ 0 ∧
      ((RawExaminerController.construct true (0 : ℝ) 0 (-2)).run Real.sqrt
        [.click true 1 false 0.1 0.1, .move 0.2 0.1, .move 0.1 0.1,
          .click false 1 false 0.1 0.1]).m_rotation =
        unitOf (RawExaminerController.construct true (0 : ℝ) 0 (-2)).m_rotation :=
  ⟨identity_ne_zero,
    (C3_return_to_start (RawExaminerController.construct true (0 : ℝ) 0 (-2)) 0.1 0.1 0.2 0.1 false
      0.1 0.1 ⟨true, 0, 0, -2, [], rfl⟩ identity_ne_zero).1⟩

/-- Claim C4. While dollying, `move(x, y)` adds exactly `x - dollyAnchorX` to
`translationX` and `y - dollyAnchorY` to `translationY`, sets the dolly anchor
to `(x, y)` and, when panning is off, leaves `translationZ` as it was.
Scenario, from any state with panning off: press button 2 at `(0, 0)`, move to
`(0, 0.5)`, release gives `translationX + 0`, `translationY + 0.5` and
`translationZ` unchanged. -/
theorem C4_move_dollying {F : Type} [LinearOrderedField F] (sqrt : F → F)
    (c : RawExaminerController F) (x y : F) (keyboardModifier keyboardModifier2 : Bool)
    (rx ry : F) :
    (c.m_bPitch = true →
      (c.move sqrt x y).m_translationX = c.m_translationX + (x - c.m_pitchX) ∧
      (c.move sqrt x y).m_translationY = c.m_translationY + (y - c.m_pitchY) ∧
      (c.move sqrt x y).m_pitchX = x ∧
      (c.move sqrt x y).m_pitchY = y ∧
      (c.m_bShift = false → (c.move sqrt x y).m_translationZ = c.m_translationZ)) ∧
    (c.m_bShift = false →
      (c.run sqrt [.click true 2 keyboardModifier 0 0, .move 0 0.5,
          .click false 2 keyboardModifier2 rx ry]).m_translationX = c.m_translationX + 0 ∧
      (c.run sqrt [.click true 2 keyboardModifier 0 0, .move 0 0.5,
          .click false 2 keyboardModifier2 rx ry]).m_translationY = c.m_translationY + 0.5 ∧
      (c.run sqrt [.click true 2 keyboardModifier 0 0, .move 0 0.5,
          .click false 2 keyboardModifier2 rx ry]).m_translationZ = c.m_translationZ) := by
  constructor
  · intro hd
    refine ⟨?_, ?_, ?_, ?_, ?_⟩
    · rw [move_m_translationX, if_pos hd]
    · rw [move_m_translationY, if_pos hd]
    · rw [move_m_pitchX, if_pos hd]
    · rw [move_m_pitchY, if_pos hd]
    · intro hs
      rw [move_m_translationZ, hs]
      rfl
  · intro hs
    have h2 : (c.click true 2 keyboardModifier 0 0).m_bPitch = true ∧
        (c.click true 2 keyboardModifier 0 0).m_pitchX = 0 ∧
        (c.click true 2 keyboardModifier 0 0).m_pitchY = 0 ∧
        (c.click true 2 keyboardModifier 0 0).m_bShift = false := by
      simp [RawExaminerController.click, RawExaminerController.clickButton1,
        RawExaminerController.clickButton2, hs]
    obtain ⟨hp, hx, hy, hs2⟩ := h2
    obtain ⟨tx, ty, tz⟩ := click_translation c true 2 keyboardModifier 0 0
    simp only [RawExaminerController.run, List.foldl_cons, List.foldl_nil,
      RawExaminerController.call]
    refine ⟨?_, ?_, ?_⟩
    · rw [(click_translation _ _ _ _ _ _).1, move_m_translationX, if_pos hp, hx, tx]
      simp
    · rw [(click_translation _ _ _ _ _ _).2.1, move_m_translationY, if_pos hp, hy, ty]
      simp
    · rw [(click_translation _ _ _ _ _ _).2.2, move_m_translationZ, hs2, tz]
      rfl

/-- Witness of C4: on a fresh object with default translation `(0, 0, -2)`,
press button 2 at `(0, 0)`; dollying is on and panning off, and the move to
`(0, 1/2)` adds `0` and `1/2 - 0`. -/
theorem C4_move_dollying_witness :
    ((RawExaminerController.construct true (0 : ℚ) 0 (-2)).click true 2 false 0 0).m_bPitch = true ∧
      ((RawExaminerController.construct true (0 : ℚ) 0 (-2)).click true 2 false 0 0).m_bShift
        = false ∧
      ((((RawExaminerController.construct true (0 : ℚ) 0 (-2)).click true 2 false 0 0).move
        Rat.sqrt 0 (1 / 2)).m_translationY = 1 / 2 ∧
      (((RawExaminerController.construct true (0 : ℚ) 0 (-2)).click true 2 false 0 0).move
        Rat.sqrt 0 (1 / 2)).m_translationZ = -2) :=
  ⟨rfl, rfl,
    ((C4_move_dollying Rat.sqrt
      ((RawExaminerController.construct true (0 : ℚ) 0 (-2)).click true 2 false 0 0) 0 (1 / 2)
      false false 0 0).1 rfl).2.1.trans
      (by norm_num [RawExaminerController.construct, RawExaminerController.reset,
        RawExaminerController.click, RawExaminerController.clickButton1,
        RawExaminerController.clickButton2]),
    ((C4_move_dollying Rat.sqrt
      ((RawExaminerController.construct true (0 : ℚ) 0 (-2)).click true 2 false 0 0) 0 (1 / 2)
      false false 0 0).1 rfl).2.2.2.2 rfl⟩

/-- Claim C5. While panning, with rotating and dollying off, `move(x, y)`
subtracts exactly `y - panAnchorY` from `translationZ`, leaves `translationX`,
`translationY` and the rotation as they were, and no translation component
depends on `x`.  Scenario, from any state: press button 1 with the modifier at
`(0, 0)`, move to `(0, 0.3)`, release lowers `translationZ` by `0.3` and leaves
the rotation unchanged. -/
theorem C5_move_panning {F : Type} [LinearOrderedField F] (sqrt : F → F)
    (c : RawExaminerController F) (x y xOther : F) (keyboardModifier : Bool) (rx ry : F) :
    (c.m_bShift = true → c.m_bRotate = false → c.m_bPitch = false →
      (c.move sqrt x y).m_translationZ = c.m_translationZ - (y - c.m_shiftY) ∧
      (c.move sqrt x y).m_translationX = c.m_translationX ∧
      (c.move sqrt x y).m_translationY = c.m_translationY ∧
      (c.move sqrt x y).m_rotation = c.m_rotation ∧
      (c.move sqrt xOther y).m_translationX = (c.move sqrt x y).m_translationX ∧
      (c.move sqrt xOther y).m_translationY = (c.move sqrt x y).m_translationY ∧
      (c.move sqrt xOther y).m_translationZ = (c.move sqrt x y).m_translationZ) ∧
    ((c.run sqrt [.click true 1 true 0 0, .move 0 0.3,
        .click false 1 keyboardModifier rx ry]).m_translationZ = c.m_translationZ - 0.3 ∧
      (c.run sqrt [.click true 1 true 0 0, .move 0 0.3,
        .click false 1 keyboardModifier rx ry]).m_rotation = c.m_rotation) := by
  constructor
  · intro hs hr hp
    simp only [move_m_translationX, move_m_translationY, move_m_translationZ, move_m_rotation,
      hs, hr, hp]
    simp
  · have h1 : (c.click true 1 true 0 0).m_bShift = true ∧
        (c.click true 1 true 0 0).m_bRotate = false ∧
        (c.click true 1 true 0 0).m_shiftY = 0 := by
      simp [RawExaminerController.click, RawExaminerController.clickButton1,
        RawExaminerController.clickButton2]
    obtain ⟨hs, hr, hy⟩ := h1
    simp only [RawExaminerController.run, List.foldl_cons, List.foldl_nil,
      RawExaminerController.call]
    constructor
    · rw [(click_translation _ _ _ _ _ _).2.2, move_m_translationZ, if_pos hs, hy,
        (click_translation _ _ _ _ _ _).2.2]
      simp
    · rw [click_m_rotation, move_m_rotation, hr, click_m_rotation]
      rfl

/-- Witness of C5: on a fresh object with default translation `(0, 0, -2)`,
press button 1 with the modifier at `(0, 0)`; only panning is on, and the move
to `(0, 3/10)` takes `translationZ` from `-2` to `-23/10`. -/
theorem C5_move_panning_witness :
    ((RawExaminerController.construct true (0 : ℚ) 0 (-2)).click true 1 true 0 0).m_bShift = true ∧
      ((RawExaminerController.construct true (0 : ℚ) 0 (-2)).click true 1 true 0 0).m_bRotate
        = false ∧
      ((RawExaminerController.construct true (0 : ℚ) 0 (-2)).click true 1 true 0 0).m_bPitch
        = false ∧
      (((RawExaminerController.construct true (0 : ℚ) 0 (-2)).click true 1 true 0 0).move
        Rat.sqrt 0 (3 / 10)).m_translationZ = -23 / 10 :=
  ⟨rfl, rfl, rfl,
    ((C5_move_panning Rat.sqrt
      ((RawExaminerController.construct true (0 : ℚ) 0 (-2)).click true 1 true 0 0) 0 (3 / 10) 0
      false 0 0).1 rfl rfl rfl).1.trans
      (by norm_num [RawExaminerController.construct, RawExaminerController.reset,
        RawExaminerController.click, RawExaminerController.clickButton1,
        RawExaminerController.clickButton2])⟩

/-- Claim C6. Dispatch of `click` on the recognised buttons, from every state
and for every `(x, y)`: button 1 pressed with the modifier sets panning, clears
rotating and records the pan anchor; button 1 pressed without it sets
rotating, clears panning and records the rotation anchor; button 1 released
clears rotating and panning whatever the modifier; button 2 pressed sets
dollying and records the dolly anchor; button 2 released clears dollying;
button 1 never changes dollying, button 2 never changes rotating or panning. -/
theorem C6_click_dispatch {F : Type} (c : RawExaminerController F) (x y : F)
    (pressed keyboardModifier : Bool) :
    ((c.click true 1 true x y).m_bShift = true ∧ (c.click true 1 true x y).m_bRotate = false ∧
      (c.click true 1 true x y).m_shiftX = x ∧ (c.click true 1 true x y).m_shiftY = y) ∧
    ((c.click true 1 false x y).m_bRotate = true ∧ (c.click true 1 false x y).m_bShift = false ∧
      (c.click true 1 false x y).m_lastX = x ∧ (c.click true 1 false x y).m_lastY = y) ∧
    ((c.click false 1 keyboardModifier x y).m_bRotate = false ∧
      (c.click false 1 keyboardModifier x y).m_bShift = false) ∧
    ((c.click true 2 keyboardModifier x y).m_bPitch = true ∧
      (c.click true 2 keyboardModifier x y).m_pitchX = x ∧
      (c.click true 2 keyboardModifier x y).m_pitchY = y) ∧
    (c.click false 2 keyboardModifier x y).m_bPitch = false ∧
    (c.click pressed 1 keyboardModifier x y).m_bPitch = c.m_bPitch ∧
    ((c.click pressed 2 keyboardModifier x y).m_bRotate = c.m_bRotate ∧
      (c.click pressed 2 keyboardModifier x y).m_bShift = c.m_bShift) := by
  refine ⟨?_, ?_, ?_, ?_, ?_, ?_, ?_⟩
  · simp [RawExaminerController.click, RawExaminerController.clickButton1,
      RawExaminerController.clickButton2]
  · simp [RawExaminerController.click, RawExaminerController.clickButton1,
      RawExaminerController.clickButton2]
  · simp [RawExaminerController.click, RawExaminerController.clickButton1,
      RawExaminerController.clickButton2]
  · simp [RawExaminerController.click, RawExaminerController.clickButton1,
      RawExaminerController.clickButton2]
  · simp [RawExaminerController.click, RawExaminerController.clickButton1,
      RawExaminerController.clickButton2]
  · cases pressed <;> cases keyboardModifier <;>
      simp [RawExaminerController.click, RawExaminerController.clickButton1,
        RawExaminerController.clickButton2]
  · cases pressed <;>
      simp [RawExaminerController.click, RawExaminerController.clickButton1,
        RawExaminerController.clickButton2]

/-- Claim C7. `click` changes mode flags and anchors only: whatever its
arguments it leaves the rotation, the translation, the radius, the hemisphere
sign and the default translation as they were; and with a button id other
than 1 and 2 it leaves the whole state as it was. -/
theorem C7_click_frame {F : Type} (c : RawExaminerController F) (pressed : Bool) (button : Int)
    (keyboardModifier : Bool) (x y : F) :
    ((c.click pressed button keyboardModifier x y).m_rotation = c.m_rotation ∧
      (c.click pressed button keyboardModifier x y).m_translationX = c.m_translationX ∧
      (c.click pressed button keyboardModifier x y).m_translationY = c.m_translationY ∧
      (c.click pressed button keyboardModifier x y).m_translationZ = c.m_translationZ ∧
      (c.click pressed button keyboardModifier x y).m_radius = c.m_radius ∧
      (c.click pressed button keyboardModifier x y).m_hemisphere = c.m_hemisphere ∧
      (c.click pressed button keyboardModifier x y).m_defaultTranslationX =
        c.m_defaultTranslationX ∧
      (c.click pressed button keyboardModifier x y).m_defaultTranslationY =
        c.m_defaultTranslationY ∧
      (c.click pressed button keyboardModifier x y).m_defaultTranslationZ =
        c.m_defaultTranslationZ) ∧
    (button ≠ 1 → button ≠ 2 → c.click pressed button keyboardModifier x y = c) := by
  obtain ⟨t1, t2, t3⟩ := click_translation c pressed button keyboardModifier x y
  obtain ⟨d1, d2, d3⟩ := click_defaultTranslation c pressed button keyboardModifier x y
  refine ⟨⟨click_m_rotation c _ _ _ _ _, t1, t2, t3, click_m_radius c _ _ _ _ _,
    click_m_hemisphere c _ _ _ _ _, d1, d2, d3⟩, ?_⟩
  intro h1 h2
  simp [RawExaminerController.click, RawExaminerController.clickButton1,
    RawExaminerController.clickButton2, h1, h2]

/-- Witness of C7: a press of button 3 during a rotating drag changes
nothing. -/
theorem C7_click_frame_witness :
    (3 : Int) ≠ 1 ∧ (3 : Int) ≠ 2 ∧
      ((RawExaminerController.construct true (0 : ℚ) 0 (-2)).click true 1 false 1 1).click true 3
          false 5 7 =
        (RawExaminerController.construct true (0 : ℚ) 0 (-2)).click true 1 false 1 1 :=
  ⟨by decide, by decide,
    (C7_click_frame ((RawExaminerController.construct true (0 : ℚ) 0 (-2)).click true 1 false 1 1)
      true 3 false 5 7).2 (by decide) (by decide)⟩

/-- Claim C8. From every state, after `reset()` the rotation quaternion is
exactly `(1, 0, 0, 0)`, the translation vector is the stored default
translation, which in a state reached from `construct gaze tx ty tz` is
`(tx, ty, tz)`, the three mode flags and `active()` are false and the rotation
matrix is the identity.  Scenario: constructed with gaze +Z and default
`(0, 0, -2)`, `reset` gives rotation `(1, 0, 0, 0)` and translation
`(0, 0, -2)`. -/
theorem C8_reset_queries {F : Type} [LinearOrderedField F] (sqrt : F → F)
    (c : RawExaminerController F) (gaze : Bool) (tx ty tz : F) (calls : List (Call F)) :
    c.reset.getRotationQuaternion = ![1, 0, 0, 0] ∧
    c.reset.getTranslationVector =
      ![c.m_defaultTranslationX, c.m_defaultTranslationY, c.m_defaultTranslationZ] ∧
    ((RawExaminerController.construct gaze tx ty tz).run sqrt calls).reset.getTranslationVector =
      ![tx, ty, tz] ∧
    (c.reset.m_bRotate = false ∧ c.reset.m_bShift = false ∧ c.reset.m_bPitch = false) ∧
    c.reset.active = false ∧
    c.reset.getRotationMatrix = ![1, 0, 0, 0, 0, 1, 0, 0, 0, 0, 1, 0, 0, 0, 0, 1] ∧
    (RawExaminerController.construct true (0 : F) 0 (-2)).reset.getRotationQuaternion =
      ![1, 0, 0, 0] ∧
    (RawExaminerController.construct true (0 : F) 0 (-2)).reset.getTranslationVector =
      ![0, 0, -2] := by
  refine ⟨rfl, rfl, ?_, ⟨rfl, rfl, rfl⟩, rfl, ?_, rfl, rfl⟩
  · obtain ⟨h1, h2, h3⟩ :=
      run_defaultTranslation sqrt calls (RawExaminerController.construct gaze tx ty tz)
    simp only [RawExaminerController.getTranslationVector, RawExaminerController.reset, h1, h2, h3]
    rfl
  · funext i
    fin_cases i <;>
      simp [RawExaminerController.getRotationMatrix, RawExaminerController.reset]

/-- Counterexample to C9 as stated: `reset()` does not write `m_lastX` and
`m_lastY`; after a rotating press at `(1, 1)` and a `reset()` the rotation
anchor is still `(1, 1)`. -/
theorem C9_reset_keeps_rotation_anchor :
    ((RawExaminerController.construct true (0 : ℚ) 0 0).run Rat.sqrt
        [.click true 1 false 1 1, .reset]).m_lastX = 1 ∧
      ((RawExaminerController.construct true (0 : ℚ) 0 0).run Rat.sqrt
        [.click true 1 false 1 1, .reset]).m_lastX ≠ 0 ∧
      ((RawExaminerController.construct true (0 : ℚ) 0 0).run Rat.sqrt
        [.click true 1 false 1 1, .reset]).m_lastY ≠ 0 := by
  refine ⟨rfl, ?_, ?_⟩
  · show (1 : ℚ) ≠ 0
    exact one_ne_zero
  · show (1 : ℚ) ≠ 0
    exact one_ne_zero

/-- Claim C9, amended. From every state, after `reset()` the pan anchor and the
dolly anchor are 0; the rotation anchor `(lastX, lastY)` keeps the value it
had, and rotating is off, so that `move` does not read the anchor before a
rotating press has written it. -/
theorem C9_reset_anchors {F : Type} [LinearOrderedField F] (c : RawExaminerController F)
    (x y : F) :
    (c.reset.m_shiftX = 0 ∧ c.reset.m_shiftY = 0) ∧
    (c.reset.m_pitchX = 0 ∧ c.reset.m_pitchY = 0) ∧
    (c.reset.m_lastX = c.m_lastX ∧ c.reset.m_lastY = c.m_lastY) ∧
    c.reset.m_bRotate = false ∧
    ((c.reset.click true 1 false x y).m_lastX = x ∧
      (c.reset.click true 1 false x y).m_lastY = y) := by
  refine ⟨⟨rfl, rfl⟩, ⟨rfl, rfl⟩, ⟨rfl, rfl⟩, rfl, ?_⟩
  simp [RawExaminerController.click, RawExaminerController.clickButton1,
    RawExaminerController.clickButton2]

/-- Counterexample to C10 as stated, on a fresh object: a press of button 3 is
a click with `pressed = true` after which `active()` is false; and after
press 2, press 1, release 1 the release of button 1 leaves `active()` true,
because dollying is still on. -/
theorem C10_active_counterexample :
    ((RawExaminerController.construct true (0 : ℚ) 0 0).click true 3 false 0 0).active = false ∧
      ((RawExaminerController.construct true (0 : ℚ) 0 0).run Rat.sqrt
        [.click true 2 false 0 0, .click true 1 false 0 0, .click false 1 false 0 0]).active
        = true :=
  ⟨rfl, rfl⟩

/-- Claim C10, amended. `active()` is true iff one of rotating, panning,
dollying is; from every state it is true right after a press of button 1 or of
button 2; right after a release of button 1 it equals dollying and right after
a release of button 2 it equals rotating-or-panning, so it is false after the
release that follows a press when the other button holds no mode; a click of
any other button leaves it as it was; it is false after `abort()`. -/
theorem C10_active {F : Type} (c : RawExaminerController F) (pressed : Bool) (button : Int)
    (keyboardModifier keyboardModifier2 : Bool) (x y rx ry : F) :
    (c.active = true ↔ (c.m_bRotate = true ∨ c.m_bShift = true ∨ c.m_bPitch = true)) ∧
    (c.click true 1 keyboardModifier x y).active = true ∧
    (c.click true 2 keyboardModifier x y).active = true ∧
    (c.click false 1 keyboardModifier x y).active = c.m_bPitch ∧
    (c.click false 2 keyboardModifier x y).active = (c.m_bRotate || c.m_bShift) ∧
    (c.m_bPitch = false →
      ((c.click true 1 keyboardModifier x y).click false 1 keyboardModifier2 rx ry).active
        = false) ∧
    (c.m_bRotate = false → c.m_bShift = false →
      ((c.click true 2 keyboardModifier x y).click false 2 keyboardModifier2 rx ry).active
        = false) ∧
    (button ≠ 1 → button ≠ 2 →
      (c.click pressed button keyboardModifier x y).active = c.active) ∧
    c.abort.active = false := by
  refine ⟨?_, ?_, ?_, ?_, ?_, ?_, ?_, ?_, rfl⟩
  · simp [RawExaminerController.active, or_assoc]
  · cases keyboardModifier <;>
      simp [RawExaminerController.active, RawExaminerController.click,
        RawExaminerController.clickButton1, RawExaminerController.clickButton2]
  · simp [RawExaminerController.active, RawExaminerController.click,
      RawExaminerController.clickButton1, RawExaminerController.clickButton2]
  · simp [RawExaminerController.active, RawExaminerController.click,
      RawExaminerController.clickButton1, RawExaminerController.clickButton2]
  · simp [RawExaminerController.active, RawExaminerController.click,
      RawExaminerController.clickButton1, RawExaminerController.clickButton2]
  · intro hp
    cases keyboardModifier <;>
      simp [RawExaminerController.active, RawExaminerController.click,
        RawExaminerController.clickButton1, RawExaminerController.clickButton2, hp]
  · intro hr hs
    simp [RawExaminerController.active, RawExaminerController.click,
      RawExaminerController.clickButton1, RawExaminerController.clickButton2, hr, hs]
  · intro h1 h2
    simp [RawExaminerController.click, RawExaminerController.clickButton1,
      RawExaminerController.clickButton2, h1, h2]

/-- Witness of C10 amended: on a fresh object no mode is on, so press and
release of button 1 end with `active()` false, as do press and release of
button 2, and a press of button 3 leaves `active()` as it was. -/
theorem C10_active_witness :
    (RawExaminerController.construct true (0 : ℚ) 0 (-2)).m_bPitch = false ∧
      (((RawExaminerController.construct true (0 : ℚ) 0 (-2)).click true 1 false 0 0).click false 1
        false 0 0).active = false ∧
      (((RawExaminerController.construct true (0 : ℚ) 0 (-2)).click true 2 false 0 0).click false 2
        false 0 0).active = false ∧
      ((RawExaminerController.construct true (0 : ℚ) 0 (-2)).click true 3 false 0 0).active =
        (RawExaminerController.construct true (0 : ℚ) 0 (-2)).active :=
  ⟨rfl,
    (C10_active (RawExaminerController.construct true (0 : ℚ) 0 (-2)) true 3 false false 0 0 0
      0).2.2.2.2.2.1 rfl,
    (C10_active (RawExaminerController.construct true (0 : ℚ) 0 (-2)) true 3 false false 0 0 0
      0).2.2.2.2.2.2.1 rfl rfl,
    (C10_active (RawExaminerController.construct true (0 : ℚ) 0 (-2)) true 3 false false 0 0 0
      0).2.2.2.2.2.2.2.1 (by decide) (by decide)⟩

/-- Claim C11. From every state, `abort()` sets rotating, panning and dollying
to false and leaves the rotation, the translation, the rotation, pan and dolly
anchors, the radius, the hemisphere sign and the default translation as they
were; a `move` after `abort` changes nothing. -/
theorem C11_abort_frame {F : Type} [LinearOrderedField F] (sqrt : F → F)
    (c : RawExaminerController F) (x y : F) :
    (c.abort.m_bRotate = false ∧ c.abort.m_bShift = false ∧ c.abort.m_bPitch = false) ∧
    c.abort.m_rotation = c.m_rotation ∧
    (c.abort.m_translationX = c.m_translationX ∧ c.abort.m_translationY = c.m_translationY ∧
      c.abort.m_translationZ = c.m_translationZ) ∧
    (c.abort.m_lastX = c.m_lastX ∧ c.abort.m_lastY = c.m_lastY) ∧
    (c.abort.m_shiftX = c.m_shiftX ∧ c.abort.m_shiftY = c.m_shiftY) ∧
    (c.abort.m_pitchX = c.m_pitchX ∧ c.abort.m_pitchY = c.m_pitchY) ∧
    (c.abort.m_radius = c.m_radius ∧ c.abort.m_hemisphere = c.m_hemisphere) ∧
    (c.abort.m_defaultTranslationX = c.m_defaultTranslationX ∧
      c.abort.m_defaultTranslationY = c.m_defaultTranslationY ∧
      c.abort.m_defaultTranslationZ = c.m_defaultTranslationZ) ∧
    c.abort.move sqrt x y = c.abort :=
  ⟨⟨rfl, rfl, rfl⟩, rfl, ⟨rfl, rfl, rfl⟩, ⟨rfl, rfl⟩, ⟨rfl, rfl⟩, ⟨rfl, rfl⟩, ⟨rfl, rfl⟩,
    ⟨rfl, rfl, rfl⟩, rfl⟩

/-! ## Rotating and panning exclude each other -/

theorem click_exclusive {F : Type} (c : RawExaminerController F) (pressed : Bool) (button : Int)
    (keyboardModifier : Bool) (mx my : F)
    (h : ¬ (c.m_bRotate = true ∧ c.m_bShift = true)) :
    ¬ ((c.click pressed button keyboardModifier mx my).m_bRotate = true ∧
      (c.click pressed button keyboardModifier mx my).m_bShift = true) := by
  unfold RawExaminerController.click RawExaminerController.clickButton1
    RawExaminerController.clickButton2
  split_ifs <;> simp_all

section exclusivity

variable {F : Type} [LinearOrderedField F] (sqrt : F → F)

open RawExaminerController

theorem call_exclusive (c : RawExaminerController F) (k : Call F)
    (h : ¬ (c.m_bRotate = true ∧ c.m_bShift = true)) :
    ¬ ((c.call sqrt k).m_bRotate = true ∧ (c.call sqrt k).m_bShift = true) := by
  cases k with
  | reset => simp [call, reset]
  | click pressed button keyboardModifier mx my => exact click_exclusive c _ _ _ _ _ h
  | move mx my =>
    obtain ⟨hr, hs, -⟩ := move_flags sqrt c mx my
    simp only [call, hr, hs]
    exact h
  | abort => simp [call, abort]
  | setRotationQuaternion q => exact h
  | setTranslationVector t => exact h

theorem run_exclusive (calls : List (Call F)) (c : RawExaminerController F)
    (h : ¬ (c.m_bRotate = true ∧ c.m_bShift = true)) :
    ¬ ((c.run sqrt calls).m_bRotate = true ∧ (c.run sqrt calls).m_bShift = true) := by
  induction calls generalizing c with
  | nil => exact h
  | cons k ks ih =>
    simp only [run, List.foldl_cons]
    exact ih _ (call_exclusive sqrt c k h)

end exclusivity

/-- Claim C12. In every state reached from construction by `reset`, `click`,
`move`, `abort` and the setters with arbitrary arguments, rotating and panning
are not both true; dollying goes with either: after press 1 and press 2 both
rotating and dollying are true, and after press 1 with the modifier and press 2
both panning and dollying are true. -/
theorem C12_mode_exclusivity {F : Type} [LinearOrderedField F] (sqrt : F → F) (gaze : Bool)
    (tx ty tz : F) (calls : List (Call F)) :
    ¬ (((RawExaminerController.construct gaze tx ty tz).run sqrt calls).m_bRotate = true ∧
      ((RawExaminerController.construct gaze tx ty tz).run sqrt calls).m_bShift = true) ∧
    (((RawExaminerController.construct gaze tx ty tz).run sqrt
        [.click true 1 false 0 0, .click true 2 false 0 0]).m_bRotate = true ∧
      ((RawExaminerController.construct gaze tx ty tz).run sqrt
        [.click true 1 false 0 0, .click true 2 false 0 0]).m_bPitch = true) ∧
    (((RawExaminerController.construct gaze tx ty tz).run sqrt
        [.click true 1 true 0 0, .click true 2 false 0 0]).m_bShift = true ∧
      ((RawExaminerController.construct gaze tx ty tz).run sqrt
        [.click true 1 true 0 0, .click true 2 false 0 0]).m_bPitch = true) :=
  ⟨run_exclusive sqrt calls _ (by simp [RawExaminerController.construct,
      RawExaminerController.reset]), ⟨rfl, rfl⟩, ⟨rfl, rfl⟩⟩

/-- Claim C13. Construction sets the radius to 0.8, the hemisphere sign to -1
when the gaze is along +Z and to 1 otherwise, and stores the default
translation; no public call (`reset`, `click`, `move`, `abort`,
`setRotationQuaternion`, `setTranslationVector`), and so no sequence of them,
changes the radius, the hemisphere sign or the default translation. -/
theorem C13_construction_constants {F : Type} [LinearOrderedField F] (sqrt : F → F) (gaze : Bool)
    (tx ty tz : F) (c : RawExaminerController F) (k : Call F) (calls : List (Call F)) :
    ((RawExaminerController.construct gaze tx ty tz).m_radius = 0.8 ∧
      (RawExaminerController.construct true tx ty tz).m_hemisphere = -1 ∧
      (RawExaminerController.construct false tx ty tz).m_hemisphere = 1 ∧
      (RawExaminerController.construct gaze tx ty tz).m_defaultTranslationX = tx ∧
      (RawExaminerController.construct gaze tx ty tz).m_defaultTranslationY = ty ∧
      (RawExaminerController.construct gaze tx ty tz).m_defaultTranslationZ = tz) ∧
    ((c.call sqrt k).m_radius = c.m_radius ∧
      (c.call sqrt k).m_hemisphere = c.m_hemisphere ∧
      (c.call sqrt k).m_defaultTranslationX = c.m_defaultTranslationX ∧
      (c.call sqrt k).m_defaultTranslationY = c.m_defaultTranslationY ∧
      (c.call sqrt k).m_defaultTranslationZ = c.m_defaultTranslationZ) ∧
    ((c.run sqrt calls).m_radius = c.m_radius ∧
      (c.run sqrt calls).m_hemisphere = c.m_hemisphere ∧
      (c.run sqrt calls).m_defaultTranslationX = c.m_defaultTranslationX ∧
      (c.run sqrt calls).m_defaultTranslationY = c.m_defaultTranslationY ∧
      (c.run sqrt calls).m_defaultTranslationZ = c.m_defaultTranslationZ) :=
  ⟨⟨rfl, rfl, rfl, rfl, rfl, rfl⟩,
    ⟨call_m_radius sqrt c k, call_m_hemisphere sqrt c k, call_defaultTranslation sqrt c k⟩,
    ⟨run_m_radius sqrt calls c, run_m_hemisphere sqrt calls c,
      run_defaultTranslation sqrt calls c⟩⟩

/-! ## The rotation matrix of a unit quaternion -/

section rotation_matrix

open RawExaminerController ArcballSpec

theorem rotationBlock_getRotationMatrix {F : Type} [LinearOrderedField F]
    (c : RawExaminerController F) :
    rotationBlock c.getRotationMatrix =
      Matrix.of ![![1 - 2 * (c.m_rotation 2 * c.m_rotation 2 + c.m_rotation 3 * c.m_rotation 3),
          2 * (c.m_rotation 1 * c.m_rotation 2 - c.m_rotation 3 * c.m_rotation 0),
          2 * (c.m_rotation 1 * c.m_rotation 3 + c.m_rotation 2 * c.m_rotation 0)],
        ![2 * (c.m_rotation 1 * c.m_rotation 2 + c.m_rotation 3 * c.m_rotation 0),
          1 - 2 * (c.m_rotation 1 * c.m_rotation 1 + c.m_rotation 3 * c.m_rotation 3),
          2 * (c.m_rotation 2 * c.m_rotation 3 - c.m_rotation 1 * c.m_rotation 0)],
        ![2 * (c.m_rotation 1 * c.m_rotation 3 - c.m_rotation 2 * c.m_rotation 0),
          2 * (c.m_rotation 2 * c.m_rotation 3 + c.m_rotation 1 * c.m_rotation 0),
          1 - 2 * (c.m_rotation 1 * c.m_rotation 1 + c.m_rotation 2 * c.m_rotation 2)]] := by
  ext i j
  fin_cases i <;> fin_cases j <;> rfl

theorem rotationBlock_mulVec (c : RawExaminerController ℝ) (v : Fin 3 → ℝ)
    (h : UnitQuaternion c.m_rotation) :
    (rotationBlock c.getRotationMatrix).mulVec v =
      vectorPart (toQuaternion c.m_rotation * pureQuaternion v * star (toQuaternion c.m_rotation)) := by
  unfold UnitQuaternion at h
  rw [rotationBlock_getRotationMatrix]
  funext i
  fin_cases i
  · simp [Matrix.mulVec, Matrix.dotProduct, Fin.sum_univ_three, vectorPart, toQuaternion,
      pureQuaternion]
    linear_combination (-v 0) * h
  · simp [Matrix.mulVec, Matrix.dotProduct, Fin.sum_univ_three, vectorPart, toQuaternion,
      pureQuaternion]
    linear_combination (-v 1) * h
  · simp [Matrix.mulVec, Matrix.dotProduct, Fin.sum_univ_three, vectorPart, toQuaternion,
      pureQuaternion]
    linear_combination (-v 2) * h

theorem rotationBlock_orthogonal (c : RawExaminerController ℝ) (h : UnitQuaternion c.m_rotation) :
    (rotationBlock c.getRotationMatrix).transpose * rotationBlock c.getRotationMatrix = 1 := by
  unfold UnitQuaternion at h
  rw [rotationBlock_getRotationMatrix]
  generalize c.m_rotation 0 = w at h ⊢
  generalize c.m_rotation 1 = x at h ⊢
  generalize c.m_rotation 2 = y at h ⊢
  generalize c.m_rotation 3 = z at h ⊢
  ext i j
  fin_cases i <;> fin_cases j <;>
    simp only [Matrix.mul_apply, Matrix.transpose_apply, Fin.sum_univ_three] <;> simp
  · linear_combination (2 * (w ^ 2 + x ^ 2 + y ^ 2 + z ^ 2) - 2 * (w ^ 2 + x ^ 2 - y ^ 2 - z ^ 2)) * h
  · linear_combination (-(4 * x * y)) * h
  · linear_combination (-(4 * x * z)) * h
  · linear_combination (-(4 * x * y)) * h
  · linear_combination (2 * (w ^ 2 + x ^ 2 + y ^ 2 + z ^ 2) - 2 * (w ^ 2 - x ^ 2 + y ^ 2 - z ^ 2)) * h
  · linear_combination (-(4 * y * z)) * h
  · linear_combination (-(4 * x * z)) * h
  · linear_combination (-(4 * y * z)) * h
  · linear_combination (2 * (w ^ 2 + x ^ 2 + y ^ 2 + z ^ 2) - 2 * (w ^ 2 - x ^ 2 - y ^ 2 + z ^ 2)) * h

theorem rotationBlock_det (c : RawExaminerController ℝ) (h : UnitQuaternion c.m_rotation) :
    (rotationBlock c.getRotationMatrix).det = 1 := by
  unfold UnitQuaternion at h
  rw [rotationBlock_getRotationMatrix, Matrix.det_fin_three]
  generalize c.m_rotation 0 = w at h ⊢
  generalize c.m_rotation 1 = x at h ⊢
  generalize c.m_rotation 2 = y at h ⊢
  generalize c.m_rotation 3 = z at h ⊢
  simp
  linear_combination (4 * (x ^ 2 + y ^ 2 + z ^ 2)) * h

end rotation_matrix

/-- Claim C14. The rotation matrix is the canonical conversion of the stored
quaternion: whatever the quaternion, the entries 3, 7, 11, 12, 13, 14 are 0
and the entry 15 is 1; and for a unit quaternion `q`, with the 16 values read
column-major, the upper-left 3x3 block `R` satisfies
`R v = vector part of q (0, v) conj(q)` for every 3-vector `v`, is orthogonal
and has determinant 1. -/
theorem C14_rotation_matrix (c : RawExaminerController ℝ) (v : Fin 3 → ℝ) :
    (c.getRotationMatrix 3 = 0 ∧ c.getRotationMatrix 7 = 0 ∧ c.getRotationMatrix 11 = 0 ∧
      c.getRotationMatrix 12 = 0 ∧ c.getRotationMatrix 13 = 0 ∧ c.getRotationMatrix 14 = 0 ∧
      c.getRotationMatrix 15 = 1) ∧
    (UnitQuaternion c.m_rotation →
      (rotationBlock c.getRotationMatrix).mulVec v =
          ArcballSpec.vectorPart
            (ArcballSpec.toQuaternion c.m_rotation * ArcballSpec.pureQuaternion v *
              star (ArcballSpec.toQuaternion c.m_rotation)) ∧
        (rotationBlock c.getRotationMatrix).transpose * rotationBlock c.getRotationMatrix = 1 ∧
        (rotationBlock c.getRotationMatrix).det = 1) :=
  ⟨⟨rfl, rfl, rfl, rfl, rfl, rfl, rfl⟩,
    fun h => ⟨rotationBlock_mulVec c v h, rotationBlock_orthogonal c h, rotationBlock_det c h⟩⟩

/-- Witness of C14: the unit quaternion `(3/5, 0, 4/5, 0)` stored by
`setRotationQuaternion`; the block of its rotation matrix has determinant 1. -/
theorem C14_rotation_matrix_witness :
    UnitQuaternion
        ((RawExaminerController.construct true (0 : ℝ) 0 (-2)).setRotationQuaternion
          ![3 / 5, 0, 4 / 5, 0]).m_rotation ∧
      (rotationBlock
        ((RawExaminerController.construct true (0 : ℝ) 0 (-2)).setRotationQuaternion
          ![3 / 5, 0, 4 / 5, 0]).getRotationMatrix).det = 1 :=
  ⟨by norm_num [RawExaminerController.setRotationQuaternion, UnitQuaternion],
    ((C14_rotation_matrix
      ((RawExaminerController.construct true (0 : ℝ) 0 (-2)).setRotationQuaternion
        ![3 / 5, 0, 4 / 5, 0]) ![1, 0, 0]).2
      (by norm_num [RawExaminerController.setRotationQuaternion, UnitQuaternion])).2.2⟩

/-! ## The three arrays of 16 values read column-major -/

section column_major

variable {F : Type} [LinearOrderedField F] (c : RawExaminerController F)

theorem columnMajor_getRotationMatrix :
    columnMajor c.getRotationMatrix =
      Matrix.of ![![c.getRotationMatrix 0, c.getRotationMatrix 4, c.getRotationMatrix 8, 0],
        ![c.getRotationMatrix 1, c.getRotationMatrix 5, c.getRotationMatrix 9, 0],
        ![c.getRotationMatrix 2, c.getRotationMatrix 6, c.getRotationMatrix 10, 0],
        ![0, 0, 0, 1]] := by
  ext i j
  fin_cases i <;> fin_cases j <;> rfl

theorem columnMajor_getTranslationMatrix :
    columnMajor c.getTranslationMatrix =
      Matrix.of ![![1, 0, 0, c.m_translationX], ![0, 1, 0, c.m_translationY],
        ![0, 0, 1, c.m_translationZ], ![0, 0, 0, 1]] := by
  ext i j
  fin_cases i <;> fin_cases j <;> rfl

theorem columnMajor_getTransformationMatrix :
    columnMajor c.getTransformationMatrix =
      Matrix.of ![![c.getRotationMatrix 0, c.getRotationMatrix 4, c.getRotationMatrix 8,
          c.m_translationX],
        ![c.getRotationMatrix 1, c.getRotationMatrix 5, c.getRotationMatrix 9, c.m_translationY],
        ![c.getRotationMatrix 2, c.getRotationMatrix 6, c.getRotationMatrix 10,
          c.m_translationZ],
        ![0, 0, 0, 1]] := by
  ext i j
  fin_cases i <;> fin_cases j <;> rfl

theorem columnMajor_transformation_eq_mul :
    columnMajor c.getTransformationMatrix =
      columnMajor c.getTranslationMatrix * columnMajor c.getRotationMatrix := by
  rw [columnMajor_getTransformationMatrix, columnMajor_getTranslationMatrix,
    columnMajor_getRotationMatrix]
  ext i j
  fin_cases i <;> fin_cases j <;> simp [Matrix.mul_apply, Fin.sum_univ_four]

end column_major

/-- Claim C15. In every state the transformation matrix is the rotation matrix
with the entries 12, 13, 14 replaced by `translationX`, `translationY`,
`translationZ`; the translation matrix is the identity with the translation at
12..14; and with all three arrays read column-major the transformation matrix
is the product `T * R` of the translation matrix and the rotation matrix, so
it applies the rotation first and the translation second. -/
theorem C15_transformation_matrix {F : Type} [LinearOrderedField F]
    (c : RawExaminerController F) (u : Fin 4 → F) :
    c.getTransformationMatrix =
      ![c.getRotationMatrix 0, c.getRotationMatrix 1, c.getRotationMatrix 2,
        c.getRotationMatrix 3, c.getRotationMatrix 4, c.getRotationMatrix 5,
        c.getRotationMatrix 6, c.getRotationMatrix 7, c.getRotationMatrix 8,
        c.getRotationMatrix 9, c.getRotationMatrix 10, c.getRotationMatrix 11,
        c.m_translationX, c.m_translationY, c.m_translationZ, c.getRotationMatrix 15] ∧
    c.getTranslationMatrix =
      ![1, 0, 0, 0, 0, 1, 0, 0, 0, 0, 1, 0, c.m_translationX, c.m_translationY,
        c.m_translationZ, 1] ∧
    columnMajor c.getTransformationMatrix =
      columnMajor c.getTranslationMatrix * columnMajor c.getRotationMatrix ∧
    (columnMajor c.getTransformationMatrix).mulVec u =
      (columnMajor c.getTranslationMatrix).mulVec ((columnMajor c.getRotationMatrix).mulVec u) := by
  have hprod := columnMajor_transformation_eq_mul c
  refine ⟨?_, rfl, hprod, ?_⟩
  · funext i
    fin_cases i <;> rfl
  · rw [hprod, Matrix.mulVec_mulVec]

/-! ## The horizontal drag of the specification's scenario -/

section scenario

open RawExaminerController

theorem mul_identity_right {F : Type} [LinearOrderedField F] (A : Fin 4 → F) :
    mul A ![1, 0, 0, 0] = A := by
  funext i
  fin_cases i <;> simp [mul]

theorem abs_unitOf (r : Fin 4 → ℝ) (i : Fin 4) :
    |unitOf r i| = |r i| / Real.sqrt (r 0 ^ 2 + r 1 ^ 2 + r 2 ^ 2 + r 3 ^ 2) := by
  unfold unitOf
  rw [abs_div, abs_of_nonneg (Real.sqrt_nonneg _)]

theorem sqrt_62_bounds : (0.78 : ℝ) < Real.sqrt 0.62 ∧ Real.sqrt 0.62 < 0.79 := by
  constructor
  · rw [Real.lt_sqrt (by norm_num)]
    norm_num
  · rw [Real.sqrt_lt' (by norm_num)]
    norm_num

theorem sqrt_59_bounds : (0.76 : ℝ) < Real.sqrt 0.59 ∧ Real.sqrt 0.59 < 0.77 := by
  constructor
  · rw [Real.lt_sqrt (by norm_num)]
    norm_num
  · rw [Real.sqrt_lt' (by norm_num)]
    norm_num

/-- The projections of the two points of the scenario. -/
theorem scenario_project (tx ty tz : ℝ) :
    project Real.sqrt (construct true tx ty tz).reset 0.1 0.1 = ![0.1, 0.1, -Real.sqrt 0.62] ∧
      project Real.sqrt (construct true tx ty tz).reset 0.2 0.1 =
        ![0.2, 0.1, -Real.sqrt 0.59] := by
  constructor
  · have h : (0.1 : ℝ) * 0.1 + 0.1 * 0.1 ≤ 0.8 * 0.8 := by norm_num
    simp only [project, construct, reset, if_pos h, if_true]
    norm_num
  · have h : (0.2 : ℝ) * 0.2 + 0.1 * 0.1 ≤ 0.8 * 0.8 := by norm_num
    simp only [project, construct, reset, if_pos h, if_true]
    norm_num

end scenario

section scenario_result

open RawExaminerController

/-- The arc quaternion of the scenario. -/
theorem scenario_arcQuat :
    arcQuat ![0.1, 0.1, -Real.sqrt 0.62] ![0.2, 0.1, -Real.sqrt 0.59] =
      ![0.1 * 0.2 + 0.1 * 0.1 + Real.sqrt 0.62 * Real.sqrt 0.59,
        0.1 * (Real.sqrt 0.62 - Real.sqrt 0.59),
        -(0.2 * Real.sqrt 0.62 - 0.1 * Real.sqrt 0.59),
        -0.01] := by
  funext i
  fin_cases i <;> simp [arcQuat] <;> ring

theorem scenario_arcQuat_ne_zero :
    arcQuat ![0.1, 0.1, -Real.sqrt 0.62] ![(0.2 : ℝ), 0.1, -Real.sqrt 0.59] ≠ 0 := by
  intro h
  have h3 := congrFun h 3
  rw [scenario_arcQuat] at h3
  norm_num at h3

/-- The rotation at the end of the scenario is the normalised arc quaternion. -/
theorem scenario_m_rotation (tx ty tz : ℝ) (keyboardModifier : Bool) (rx ry : ℝ) :
    ((construct true tx ty tz).run Real.sqrt (scenarioCalls keyboardModifier rx ry)).m_rotation =
      unitOf (arcQuat ![0.1, 0.1, -Real.sqrt 0.62] ![0.2, 0.1, -Real.sqrt 0.59]) := by
  simp only [scenarioCalls, run, List.foldl_cons, List.foldl_nil, call]
  rw [click_m_rotation, press_move_m_rotation, (scenario_project tx ty tz).1,
    (scenario_project tx ty tz).2]
  show RawExaminerController.norm Real.sqrt (mul _ ![1, 0, 0, 0]) = _
  rw [mul_identity_right, norm_of_ne_zero _ scenario_arcQuat_ne_zero]

theorem scenario_translation {F : Type} [LinearOrderedField F] (sqrt : F → F) (tx ty tz : F)
    (keyboardModifier : Bool) (rx ry : F) :
    ((construct true tx ty tz).run sqrt (scenarioCalls keyboardModifier rx ry)).getTranslationVector
      = ![tx, ty, tz] := by
  simp only [scenarioCalls, run, List.foldl_cons, List.foldl_nil, call, getTranslationVector]
  rw [(click_translation _ _ _ _ _ _).1, (click_translation _ _ _ _ _ _).2.1,
    (click_translation _ _ _ _ _ _).2.2, move_m_translationX, move_m_translationY,
    move_m_translationZ]
  rfl

end scenario_result

/-- Claim C16. Constructed with gaze +Z and default translation `(0, 0, -2)`,
then `reset()`, press of button 1 without modifier at `(0.1, 0.1)`,
`move(0.2, 0.1)` and release of button 1: the rotation quaternion is not
`(1, 0, 0, 0)`, its vector part has `|y| > |x|` and `|y| > |z|`, and the
translation is still exactly `(0, 0, -2)`. -/
theorem C16_horizontal_drag_scenario (keyboardModifier : Bool) (rx ry : ℝ) :
    ((RawExaminerController.construct true (0 : ℝ) 0 (-2)).run Real.sqrt
        (scenarioCalls keyboardModifier rx ry)).getRotationQuaternion ≠ ![1, 0, 0, 0] ∧
    |((RawExaminerController.construct true (0 : ℝ) 0 (-2)).run Real.sqrt
        (scenarioCalls keyboardModifier rx ry)).getRotationQuaternion 1| <
      |((RawExaminerController.construct true (0 : ℝ) 0 (-2)).run Real.sqrt
        (scenarioCalls keyboardModifier rx ry)).getRotationQuaternion 2| ∧
    |((RawExaminerController.construct true (0 : ℝ) 0 (-2)).run Real.sqrt
        (scenarioCalls keyboardModifier rx ry)).getRotationQuaternion 3| <
      |((RawExaminerController.construct true (0 : ℝ) 0 (-2)).run Real.sqrt
        (scenarioCalls keyboardModifier rx ry)).getRotationQuaternion 2| ∧
    ((RawExaminerController.construct true (0 : ℝ) 0 (-2)).run Real.sqrt
        (scenarioCalls keyboardModifier rx ry)).getTranslationVector = ![0, 0, -2] := by
  obtain ⟨l62, u62⟩ := sqrt_62_bounds
  obtain ⟨l59, u59⟩ := sqrt_59_bounds
  have hK := Real.sqrt_pos.2 (sumSq_pos_of_ne_zero _ scenario_arcQuat_ne_zero)
  simp only [sumSq, ← pow_two] at hK
  have ha1 : RawExaminerController.arcQuat ![0.1, 0.1, -Real.sqrt 0.62]
      ![0.2, 0.1, -Real.sqrt 0.59] 1 = 0.1 * (Real.sqrt 0.62 - Real.sqrt 0.59) := by
    rw [scenario_arcQuat]
    rfl
  have ha2 : RawExaminerController.arcQuat ![0.1, 0.1, -Real.sqrt 0.62]
      ![0.2, 0.1, -Real.sqrt 0.59] 2 = -(0.2 * Real.sqrt 0.62 - 0.1 * Real.sqrt 0.59) := by
    rw [scenario_arcQuat]
    rfl
  have ha3 : RawExaminerController.arcQuat ![0.1, 0.1, -Real.sqrt 0.62]
      ![0.2, 0.1, -Real.sqrt 0.59] 3 = -0.01 := by
    rw [scenario_arcQuat]
    rfl
  have hne : ((RawExaminerController.construct true (0 : ℝ) 0 (-2)).run Real.sqrt
      (scenarioCalls keyboardModifier rx ry)).getRotationQuaternion ≠ ![1, 0, 0, 0] := by
    simp only [RawExaminerController.getRotationQuaternion, scenario_m_rotation]
    intro h
    have h3 := congrFun h 3
    rw [show (![1, 0, 0, 0] : Fin 4 → ℝ) 3 = 0 from rfl] at h3
    unfold unitOf at h3
    rw [div_eq_zero_iff] at h3
    rcases h3 with h3 | h3
    · rw [ha3] at h3
      norm_num at h3
    · exact hK.ne' h3
  refine ⟨hne, ?_⟩
  simp only [RawExaminerController.getRotationQuaternion, scenario_m_rotation, abs_unitOf]
  generalize Real.sqrt (_ ^ 2 + _ ^ 2 + _ ^ 2 + _ ^ 2) = K at hK ⊢
  rw [ha1, ha2, ha3]
  generalize Real.sqrt 0.62 = s0 at l62 u62 ⊢
  generalize Real.sqrt 0.59 = s1 at l59 u59 ⊢
  have e1 : |0.1 * (s0 - s1)| = 0.1 * (s0 - s1) := abs_of_pos (by linarith)
  have e2 : |(-(0.2 * s0 - 0.1 * s1))| = 0.2 * s0 - 0.1 * s1 := by
    rw [abs_neg]
    exact abs_of_pos (by linarith)
  have e3 : |(-0.01 : ℝ)| = 0.01 := by
    rw [abs_neg]
    exact abs_of_pos (by norm_num)
  rw [e1, e2, e3]
  exact ⟨div_lt_div_of_pos_right (by linarith) hK, div_lt_div_of_pos_right (by linarith) hK,
    scenario_translation Real.sqrt 0 0 (-2) keyboardModifier rx ry⟩

/-! ## The normalisation step -/

section normalisation

open RawExaminerController

theorem mul_zero_right {F : Type} [LinearOrderedField F] (A : Fin 4 → F) : mul A 0 = 0 := by
  funext i
  fin_cases i <;> simp [mul]

theorem norm_zero_quaternion : RawExaminerController.norm Real.sqrt (0 : Fin 4 → ℝ) = ![1, 0, 0, 0] := by
  rw [norm_def, if_pos]
  simp [sumSq]

theorem norm_idempotent (q : Fin 4 → ℝ) :
    RawExaminerController.norm Real.sqrt (RawExaminerController.norm Real.sqrt q) =
      RawExaminerController.norm Real.sqrt q := by
  rw [norm_def Real.sqrt (RawExaminerController.norm Real.sqrt q), sumSq_norm]
  simp

theorem sqrt_sumSq_norm (q : Fin 4 → ℝ) :
    Real.sqrt (sumSq (RawExaminerController.norm Real.sqrt q)) = 1 := by
  rw [sumSq_norm, Real.sqrt_one]

end normalisation

/-- Claim C17. After a `move` made while rotating the stored rotation has
Euclidean norm exactly 1, whatever the rotation was before; from the zero
quaternion the result is `(1, 0, 0, 0)`; the normalisation step maps every
nonzero `q` to `q / |q|`, maps zero to the identity and is idempotent. -/
theorem C17_move_rotating_normalises (c : RawExaminerController ℝ) (x y : ℝ) (q : Fin 4 → ℝ) :
    (c.m_bRotate = true →
      UnitQuaternion (c.move Real.sqrt x y).m_rotation ∧
      Real.sqrt (sumSq (c.move Real.sqrt x y).m_rotation) = 1 ∧
      (c.m_rotation = 0 → (c.move Real.sqrt x y).m_rotation = ![1, 0, 0, 0])) ∧
    (q ≠ 0 → RawExaminerController.norm Real.sqrt q = unitOf q) ∧
    RawExaminerController.norm Real.sqrt (0 : Fin 4 → ℝ) = ![1, 0, 0, 0] ∧
    RawExaminerController.norm Real.sqrt (RawExaminerController.norm Real.sqrt q) =
      RawExaminerController.norm Real.sqrt q := by
  refine ⟨?_, norm_of_ne_zero q, norm_zero_quaternion, norm_idempotent q⟩
  intro hrot
  rw [move_m_rotation, if_pos hrot]
  refine ⟨(unitQuaternion_iff _).2 (sumSq_norm _), sqrt_sumSq_norm _, ?_⟩
  intro h0
  rw [h0, mul_zero_right, norm_zero_quaternion]

/-- Witness of C17: a rotating drag started on a zero quaternion that was set
from outside ends with the identity. -/
theorem C17_move_rotating_normalises_witness :
    (((RawExaminerController.construct true (0 : ℝ) 0 (-2)).setRotationQuaternion 0).click true 1
        false 0.1 0.1).m_bRotate = true ∧
      (((RawExaminerController.construct true (0 : ℝ) 0 (-2)).setRotationQuaternion 0).click true 1
        false 0.1 0.1).m_rotation = 0 ∧
      ((((RawExaminerController.construct true (0 : ℝ) 0 (-2)).setRotationQuaternion 0).click true
        1 false 0.1 0.1).move Real.sqrt 0.2 0.1).m_rotation = ![1, 0, 0, 0] :=
  ⟨rfl, rfl,
    ((C17_move_rotating_normalises
      (((RawExaminerController.construct true (0 : ℝ) 0 (-2)).setRotationQuaternion 0).click true 1
        false 0.1 0.1) 0.2 0.1 ![1, 0, 0, 0]).1 rfl).2.2 rfl⟩

/-! ## The hemisphere projection -/

section projection

open RawExaminerController

theorem project_xy {F : Type} [LinearOrderedField F] (sqrt : F → F)
    (c : RawExaminerController F) (x y : F) :
    project sqrt c x y 0 = x ∧ project sqrt c x y 1 = y := by
  by_cases h : x * x + y * y ≤ c.m_radius * c.m_radius
  · simp only [project, if_pos h]
    exact ⟨rfl, rfl⟩
  · simp only [project, if_neg h]
    exact ⟨rfl, rfl⟩

theorem project_z_inside {F : Type} [LinearOrderedField F] (sqrt : F → F)
    (c : RawExaminerController F) (x y : F) (h : x * x + y * y ≤ c.m_radius * c.m_radius) :
    project sqrt c x y 2 = c.m_hemisphere * sqrt (c.m_radius * c.m_radius - (x * x + y * y)) := by
  simp only [project, if_pos h]
  rfl

theorem project_z_outside {F : Type} [LinearOrderedField F] (sqrt : F → F)
    (c : RawExaminerController F) (x y : F) (h : ¬ x * x + y * y ≤ c.m_radius * c.m_radius) :
    project sqrt c x y 2 = 0 := by
  simp only [project, if_neg h]
  rfl

/-- Inside the disc the projected point is on the sphere of radius `m_radius`. -/
theorem sumSq3_project_inside (c : RawExaminerController ℝ) (hc : Constructed c) (x y : ℝ)
    (h : x * x + y * y ≤ c.m_radius * c.m_radius) :
    sumSq3 (project Real.sqrt c x y) = c.m_radius * c.m_radius := by
  obtain ⟨-, hH⟩ := hc
  have hs := Real.mul_self_sqrt (sub_nonneg.2 h)
  obtain ⟨h0, h1⟩ := project_xy Real.sqrt c x y
  simp only [sumSq3, h0, h1, project_z_inside Real.sqrt c x y h]
  linear_combination
    (c.m_radius * c.m_radius - (x * x + y * y)) * hH + c.m_hemisphere * c.m_hemisphere * hs

/-- Outside the disc the projected point keeps its squared length `x² + y²`. -/
theorem sumSq3_project_outside (c : RawExaminerController ℝ) (x y : ℝ)
    (h : ¬ x * x + y * y ≤ c.m_radius * c.m_radius) :
    sumSq3 (project Real.sqrt c x y) = x * x + y * y := by
  obtain ⟨h0, h1⟩ := project_xy Real.sqrt c x y
  simp only [sumSq3, h0, h1, project_z_outside Real.sqrt c x y h]
  ring

theorem sumSq3_project_ge (c : RawExaminerController ℝ) (hc : Constructed c) (x y : ℝ) :
    c.m_radius * c.m_radius ≤ sumSq3 (project Real.sqrt c x y) := by
  by_cases h : x * x + y * y ≤ c.m_radius * c.m_radius
  · exact (sumSq3_project_inside c hc x y h).ge
  · rw [sumSq3_project_outside c x y h]
    exact (not_le.1 h).le

end projection

/-- Claim C18. With `d = x² + y²`, `project(x, y)` keeps `x` and `y`; if
`d ≤ radius²` then `z = hemisphereSign * sqrt(radius² - d)`, `z * hemisphereSign`
is not negative and, in a reachable state, `x² + y² + z² = radius²`; otherwise
`z = 0`; on the boundary `d = radius²` the first formula applies and gives
`z = 0`. -/
theorem C18_hemisphere_projection (c : RawExaminerController ℝ) (x y : ℝ) :
    (RawExaminerController.project Real.sqrt c x y 0 = x ∧
      RawExaminerController.project Real.sqrt c x y 1 = y) ∧
    (x ^ 2 + y ^ 2 ≤ c.m_radius ^ 2 →
      RawExaminerController.project Real.sqrt c x y 2 =
          c.m_hemisphere * Real.sqrt (c.m_radius ^ 2 - (x ^ 2 + y ^ 2)) ∧
        0 ≤ RawExaminerController.project Real.sqrt c x y 2 * c.m_hemisphere ∧
        (Reachable Real.sqrt c →
          x ^ 2 + y ^ 2 + RawExaminerController.project Real.sqrt c x y 2 ^ 2 = c.m_radius ^ 2)) ∧
    (¬ x ^ 2 + y ^ 2 ≤ c.m_radius ^ 2 → RawExaminerController.project Real.sqrt c x y 2 = 0) ∧
    (x ^ 2 + y ^ 2 = c.m_radius ^ 2 →
      RawExaminerController.project Real.sqrt c x y 2 =
          c.m_hemisphere * Real.sqrt (c.m_radius ^ 2 - (x ^ 2 + y ^ 2)) ∧
        RawExaminerController.project Real.sqrt c x y 2 = 0) := by
  simp only [pow_two]
  refine ⟨project_xy Real.sqrt c x y, ?_, project_z_outside Real.sqrt c x y, ?_⟩
  · intro h
    refine ⟨project_z_inside Real.sqrt c x y h, ?_, ?_⟩
    · rw [project_z_inside Real.sqrt c x y h]
      have := mul_nonneg (mul_self_nonneg c.m_hemisphere)
        (Real.sqrt_nonneg (c.m_radius * c.m_radius - (x * x + y * y)))
      linarith
    · intro hc
      have hS := sumSq3_project_inside c (constructed_of_reachable Real.sqrt c hc) x y h
      obtain ⟨h0, h1⟩ := project_xy Real.sqrt c x y
      simp only [sumSq3, h0, h1] at hS
      exact hS
  · intro h
    have hz := project_z_inside Real.sqrt c x y h.le
    refine ⟨hz, ?_⟩
    rw [hz, h, sub_self, Real.sqrt_zero, mul_zero]

/-- Witness of C18: on a fresh object the point `(0.1, 0.1)` lies inside the
disc of radius 0.8 and its projection lies on the sphere. -/
theorem C18_hemisphere_projection_witness :
    (0.1 : ℝ) ^ 2 + 0.1 ^ 2 ≤ (RawExaminerController.construct true (0 : ℝ) 0 (-2)).m_radius ^ 2 ∧
      (0.1 : ℝ) ^ 2 + 0.1 ^ 2 +
          RawExaminerController.project Real.sqrt
            (RawExaminerController.construct true (0 : ℝ) 0 (-2)) 0.1 0.1 2 ^ 2 =
        (RawExaminerController.construct true (0 : ℝ) 0 (-2)).m_radius ^ 2 :=
  ⟨by norm_num [RawExaminerController.construct, RawExaminerController.reset],
    ((C18_hemisphere_projection (RawExaminerController.construct true (0 : ℝ) 0 (-2)) 0.1
      0.1).2.1
      (by norm_num [RawExaminerController.construct, RawExaminerController.reset])).2.2
      ⟨true, 0, 0, -2, [], rfl⟩⟩

/-- Claim C19. In a reachable state, for all anchor and pointer positions each
projected point has squared length at least `radius²`, the arc quaternion has
squared norm `|P0|² * |P1|² ≥ radius⁴ > 0`, and the product has squared norm
`|arc|² * |rotation|²`, so norm `|arc| * |rotation|`; hence with a nonzero
stored rotation the length `L` computed by `move` is not zero, the fallback is
not taken, and the new rotation is `(arc * rotation) / |arc * rotation|`. -/
theorem C19_fallback_unreachable (c : RawExaminerController ℝ) (x0 y0 x y : ℝ)
    (hc : Reachable Real.sqrt c) :
    (c.m_radius ^ 2 ≤ sumSq3 (RawExaminerController.project Real.sqrt c x0 y0) ∧
      c.m_radius ^ 2 ≤ sumSq3 (RawExaminerController.project Real.sqrt c x y)) ∧
    (sumSq (RawExaminerController.arcQuat (RawExaminerController.project Real.sqrt c x0 y0)
          (RawExaminerController.project Real.sqrt c x y)) =
        sumSq3 (RawExaminerController.project Real.sqrt c x0 y0) *
          sumSq3 (RawExaminerController.project Real.sqrt c x y) ∧
      c.m_radius ^ 4 ≤
        sumSq (RawExaminerController.arcQuat (RawExaminerController.project Real.sqrt c x0 y0)
          (RawExaminerController.project Real.sqrt c x y)) ∧
      0 < c.m_radius ^ 4) ∧
    (sumSq (RawExaminerController.mul
          (RawExaminerController.arcQuat (RawExaminerController.project Real.sqrt c x0 y0)
            (RawExaminerController.project Real.sqrt c x y)) c.m_rotation) =
        sumSq (RawExaminerController.arcQuat (RawExaminerController.project Real.sqrt c x0 y0)
            (RawExaminerController.project Real.sqrt c x y)) * sumSq c.m_rotation ∧
      Real.sqrt (sumSq (RawExaminerController.mul
          (RawExaminerController.arcQuat (RawExaminerController.project Real.sqrt c x0 y0)
            (RawExaminerController.project Real.sqrt c x y)) c.m_rotation)) =
        Real.sqrt (sumSq (RawExaminerController.arcQuat
            (RawExaminerController.project Real.sqrt c x0 y0)
            (RawExaminerController.project Real.sqrt c x y))) * Real.sqrt (sumSq c.m_rotation)) ∧
    (c.m_rotation ≠ 0 →
      Real.sqrt (sumSq (RawExaminerController.mul
          (RawExaminerController.arcQuat (RawExaminerController.project Real.sqrt c x0 y0)
            (RawExaminerController.project Real.sqrt c x y)) c.m_rotation)) ≠ 0 ∧
      (c.m_bRotate = true →
        (c.move Real.sqrt x y).m_rotation =
          unitOf (RawExaminerController.mul
            (RawExaminerController.arcQuat
              (RawExaminerController.project Real.sqrt c c.m_lastX c.m_lastY)
              (RawExaminerController.project Real.sqrt c x y)) c.m_rotation))) := by
  have hC := constructed_of_reachable Real.sqrt c hc
  have hR : 0 < c.m_radius * c.m_radius := mul_self_pos.2 hC.1
  have g0 := sumSq3_project_ge c hC x0 y0
  have g1 := sumSq3_project_ge c hC x y
  have hA := sumSq_arcQuat (RawExaminerController.project Real.sqrt c x0 y0)
    (RawExaminerController.project Real.sqrt c x y)
  have hM := sumSq_mul (RawExaminerController.arcQuat
    (RawExaminerController.project Real.sqrt c x0 y0)
    (RawExaminerController.project Real.sqrt c x y)) c.m_rotation
  have h4 : c.m_radius ^ 4 = c.m_radius * c.m_radius * (c.m_radius * c.m_radius) := by ring
  refine ⟨⟨by rw [pow_two]; exact g0, by rw [pow_two]; exact g1⟩, ⟨hA, ?_, ?_⟩, ⟨hM, ?_⟩, ?_⟩
  · rw [hA, h4]
    exact mul_le_mul g0 g1 hR.le (hR.le.trans g0)
  · rw [h4]
    exact mul_pos hR hR
  · rw [hM, Real.sqrt_mul (sumSq_nonneg _)]
  · intro hr
    have hne : ∀ a b : ℝ, RawExaminerController.mul
        (RawExaminerController.arcQuat (RawExaminerController.project Real.sqrt c a b)
          (RawExaminerController.project Real.sqrt c x y)) c.m_rotation ≠ 0 := by
      intro a b h0
      have hs := sumSq_mul (RawExaminerController.arcQuat
        (RawExaminerController.project Real.sqrt c a b)
        (RawExaminerController.project Real.sqrt c x y)) c.m_rotation
      rw [h0, sumSq_arcQuat] at hs
      have hpos := mul_pos (mul_pos (sumSq3_project_pos c hC a b) (sumSq3_project_pos c hC x y))
        (sumSq_pos_of_ne_zero _ hr)
      rw [← hs] at hpos
      simp [sumSq] at hpos
    refine ⟨(Real.sqrt_pos.2 (sumSq_pos_of_ne_zero _ (hne x0 y0))).ne', ?_⟩
    intro hrot
    rw [move_m_rotation, if_pos hrot, norm_of_ne_zero _ (hne _ _)]

/-- Witness of C19: the fresh object after a rotating press at `(0.1, 0.1)`;
the move to `(0.2, 0.1)` normalises the product without the fallback. -/
theorem C19_fallback_unreachable_witness :
    ((RawExaminerController.construct true (0 : ℝ) 0 (-2)).run Real.sqrt
        [.click true 1 false 0.1 0.1]).m_rotation ≠ 0 ∧
      Real.sqrt (sumSq (RawExaminerController.mul
        (RawExaminerController.arcQuat
          (RawExaminerController.project Real.sqrt
            ((RawExaminerController.construct true (0 : ℝ) 0 (-2)).run Real.sqrt
              [.click true 1 false 0.1 0.1]) 0.1 0.1)
          (RawExaminerController.project Real.sqrt
            ((RawExaminerController.construct true (0 : ℝ) 0 (-2)).run Real.sqrt
              [.click true 1 false 0.1 0.1]) 0.2 0.1))
        ((RawExaminerController.construct true (0 : ℝ) 0 (-2)).run Real.sqrt
          [.click true 1 false 0.1 0.1]).m_rotation)) ≠ 0 :=
  ⟨identity_ne_zero,
    ((C19_fallback_unreachable
      ((RawExaminerController.construct true (0 : ℝ) 0 (-2)).run Real.sqrt
        [.click true 1 false 0.1 0.1]) 0.1 0.1 0.2 0.1
      ⟨true, 0, 0, -2, [.click true 1 false 0.1 0.1], rfl⟩).2.2.2 identity_ne_zero).1⟩

/-! ## Sequences of `move` calls -/

section move_sequences

variable {F : Type} [LinearOrderedField F] (sqrt : F → F)

open RawExaminerController

theorem move_m_shiftY (c : RawExaminerController F) (mx my : F) :
    (c.move sqrt mx my).m_shiftY = if c.m_bShift then my else c.m_shiftY := by
  unfold move moveShift movePitch moveRotate
  split_ifs <;> rfl

theorem run_moveCalls_append (c : RawExaminerController F) (points : List (F × F)) (xn yn : F) :
    c.run sqrt (moveCalls (points ++ [(xn, yn)])) =
      (c.run sqrt (moveCalls points)).move sqrt xn yn := by
  simp [run, moveCalls, List.foldl_append, call]

/-- While dollying, each `move` keeps the flag and the differences
`translationX - dollyAnchorX` and `translationY - dollyAnchorY`. -/
theorem run_moveCalls_pitch (points : List (F × F)) (c : RawExaminerController F)
    (h : c.m_bPitch = true) :
    (c.run sqrt (moveCalls points)).m_bPitch = true ∧
      (c.run sqrt (moveCalls points)).m_translationX - (c.run sqrt (moveCalls points)).m_pitchX =
        c.m_translationX - c.m_pitchX ∧
      (c.run sqrt (moveCalls points)).m_translationY - (c.run sqrt (moveCalls points)).m_pitchY =
        c.m_translationY - c.m_pitchY := by
  induction points generalizing c with
  | nil => exact ⟨h, rfl, rfl⟩
  | cons p ps ih =>
    have h1 : (c.move sqrt p.1 p.2).m_bPitch = true := (move_flags sqrt c p.1 p.2).2.2.trans h
    obtain ⟨hb, hx, hy⟩ := ih (c.move sqrt p.1 p.2) h1
    simp only [run, moveCalls, List.map_cons, List.foldl_cons, call] at hb hx hy ⊢
    refine ⟨hb, ?_, ?_⟩
    · rw [hx, move_m_translationX, move_m_pitchX, if_pos h, if_pos h]
      ring
    · rw [hy, move_m_translationY, move_m_pitchY, if_pos h, if_pos h]
      ring

/-- While panning, each `move` keeps the flag and the sum
`translationZ + panAnchorY`. -/
theorem run_moveCalls_shift (points : List (F × F)) (c : RawExaminerController F)
    (h : c.m_bShift = true) :
    (c.run sqrt (moveCalls points)).m_bShift = true ∧
      (c.run sqrt (moveCalls points)).m_translationZ + (c.run sqrt (moveCalls points)).m_shiftY =
        c.m_translationZ + c.m_shiftY := by
  induction points generalizing c with
  | nil => exact ⟨h, rfl⟩
  | cons p ps ih =>
    have h1 : (c.move sqrt p.1 p.2).m_bShift = true := (move_flags sqrt c p.1 p.2).2.1.trans h
    obtain ⟨hb, hz⟩ := ih (c.move sqrt p.1 p.2) h1
    simp only [run, moveCalls, List.map_cons, List.foldl_cons, call] at hb hz ⊢
    refine ⟨hb, ?_⟩
    rw [hz, move_m_translationZ, move_m_shiftY, if_pos h, if_pos h]
    ring

end move_sequences

/-- Claim C20. Drag translation is path independent. From a state with
dollying on, after any sequence of `move` calls that ends at `(xn, yn)`,
whatever the points before, `translationX` and `translationY` have changed by
exactly `xn - dollyAnchorX` and `yn - dollyAnchorY`; from a state with panning
on, `translationZ` has changed by exactly `-(yn - panAnchorY)`. -/
theorem C20_drag_path_independent {F : Type} [LinearOrderedField F] (sqrt : F → F)
    (c : RawExaminerController F) (points : List (F × F)) (xn yn : F) :
    (c.m_bPitch = true →
      (c.run sqrt (moveCalls (points ++ [(xn, yn)]))).m_translationX =
          c.m_translationX + (xn - c.m_pitchX) ∧
        (c.run sqrt (moveCalls (points ++ [(xn, yn)]))).m_translationY =
          c.m_translationY + (yn - c.m_pitchY)) ∧
    (c.m_bShift = true →
      (c.run sqrt (moveCalls (points ++ [(xn, yn)]))).m_translationZ =
        c.m_translationZ - (yn - c.m_shiftY)) := by
  rw [run_moveCalls_append]
  constructor
  · intro h
    obtain ⟨hb, hx, hy⟩ := run_moveCalls_pitch sqrt points c h
    rw [move_m_translationX, move_m_translationY, if_pos hb, if_pos hb]
    constructor
    · linear_combination hx
    · linear_combination hy
  · intro h
    obtain ⟨hb, hz⟩ := run_moveCalls_shift sqrt points c h
    rw [move_m_translationZ, if_pos hb]
    linear_combination hz

/-- Witness of C20: press button 2 at `(1, 1)` on a fresh object, then move
through `(5, -3)` and `(2, 7)` to `(4, 6)`: the translation goes from
`(0, 0, -2)` to `(3, 5, -2)`; and after a press of button 1 with the modifier
at `(1, 1)` the same moves take `translationZ` to `-7`. -/
theorem C20_drag_path_independent_witness :
    ((RawExaminerController.construct true (0 : ℚ) 0 (-2)).click true 2 false 1 1).m_bPitch = true ∧
      ((RawExaminerController.construct true (0 : ℚ) 0 (-2)).click true 1 true 1 1).m_bShift
        = true ∧
      ((((RawExaminerController.construct true (0 : ℚ) 0 (-2)).click true 2 false 1 1).run Rat.sqrt
          (moveCalls ([(5, -3), (2, 7)] ++ [(4, 6)]))).m_translationX = 3 ∧
        (((RawExaminerController.construct true (0 : ℚ) 0 (-2)).click true 2 false 1 1).run Rat.sqrt
          (moveCalls ([(5, -3), (2, 7)] ++ [(4, 6)]))).m_translationY = 5) ∧
      (((RawExaminerController.construct true (0 : ℚ) 0 (-2)).click true 1 true 1 1).run Rat.sqrt
        (moveCalls ([(5, -3), (2, 7)] ++ [(4, 6)]))).m_translationZ = -7 :=
  ⟨rfl, rfl,
    ⟨((C20_drag_path_independent Rat.sqrt
        ((RawExaminerController.construct true (0 : ℚ) 0 (-2)).click true 2 false 1 1)
        [(5, -3), (2, 7)] 4 6).1 rfl).1.trans
        (by norm_num [RawExaminerController.construct, RawExaminerController.reset,
          RawExaminerController.click, RawExaminerController.clickButton1,
          RawExaminerController.clickButton2]),
      ((C20_drag_path_independent Rat.sqrt
        ((RawExaminerController.construct true (0 : ℚ) 0 (-2)).click true 2 false 1 1)
        [(5, -3), (2, 7)] 4 6).1 rfl).2.trans
        (by norm_num [RawExaminerController.construct, RawExaminerController.reset,
          RawExaminerController.click, RawExaminerController.clickButton1,
          RawExaminerController.clickButton2])⟩,
    ((C20_drag_path_independent Rat.sqrt
      ((RawExaminerController.construct true (0 : ℚ) 0 (-2)).click true 1 true 1 1)
      [(5, -3), (2, 7)] 4 6).2 rfl).trans
      (by norm_num [RawExaminerController.construct, RawExaminerController.reset,
        RawExaminerController.click, RawExaminerController.clickButton1,
        RawExaminerController.clickButton2])⟩
